import Mathlib

/-
Verification of the city-infrastructure mitigation engine
(src/mitigation/city_infrastructure_network.py).

Shallow embedding conventions:
* Python strings are embedded as lists of characters (kernel-reducible,
  unlike the builtin String functions).
* float arithmetic is embedded as exact rational arithmetic; comparisons
  of Euclidean distances are performed on squared distances (equivalent
  for the real square root); where the code stores a norm-valued weight,
  the square root of a rational is abstracted by a parameter `sq` of the
  embedding (the concrete float sqrt is a fixed deterministic function).
* numpy RandomState streams are abstracted as functions from a draw
  index to a rational in [0,1); the stream is a deterministic function
  of the seed, exactly as numpy's generator is.
* networkx simple graphs are embedded as a list of nodes plus a list of
  undirected edges keyed by the unordered endpoint pair.
-/

namespace CityInfra

/-- Python strings, embedded as character lists. -/
abbrev Str := List Char

/-- Python str.lower (per-character lowering, as used on the ASCII labels). -/
def lowerStr (s : Str) : Str := s.map Char.toLower

/-- Python str.strip(): drop leading and trailing whitespace. -/
def stripStr (s : Str) : Str :=
  ((s.dropWhile Char.isWhitespace).reverse.dropWhile Char.isWhitespace).reverse

/-- Prefix test on character lists (Python startswith, used for substring scan). -/
def leadsWith : Str → Str → Bool
  | [], _ => true
  | _ :: _, [] => false
  | a :: n, b :: h => a = b && leadsWith n h

/-- Python `needle in hay` on strings: contiguous substring containment. -/
def isSubstr (needle hay : Str) : Bool :=
  (List.range (hay.length + 1)).any (fun i => leadsWith needle (hay.drop i))

/-- Python str.split() with no arguments: split on whitespace runs,
dropping empty pieces. -/
def pyWords (s : Str) : List Str :=
  (List.splitOnP Char.isWhitespace s).filter (· ≠ [])

/-- Positions in the local planar frame, as exact rationals. -/
abbrev Pos := ℚ × ℚ

/-- Squared Euclidean distance between two positions (the code compares
and stores `np.linalg.norm`; ordering by the norm and ordering by its
square agree). -/
def dsq (p q : Pos) : ℚ := (p.1 - q.1) * (p.1 - q.1) + (p.2 - q.2) * (p.2 - q.2)

/-- Graph node: id, label, infra_type and category attributes,
as set by `G.add_node(i, label=…, infra_type=…, category=…)`. -/
structure Node where
  nid : Nat
  label : Str
  itype : Str
  cat : Str
  deriving Repr, DecidableEq

/-- Undirected edge with `edge_type` and `weight` attributes. -/
structure GEdge where
  u : Nat
  v : Nat
  ety : Str
  w : ℚ
  deriving Repr, DecidableEq

/-- networkx simple graph: node list plus undirected edge list, both in
insertion order (networkx iteration order). -/
structure Graph where
  nodes : List Node
  edges : List GEdge
  deriving Repr, DecidableEq

/-- Whether edge e joins the unordered pair {a, b}. -/
def GEdge.onPair (e : GEdge) (a b : Nat) : Bool :=
  (e.u = a && e.v = b) || (e.u = b && e.v = a)

/-- networkx G.has_edge. -/
def Graph.hasEdge (g : Graph) (a b : Nat) : Bool :=
  g.edges.any (·.onPair a b)

/-- networkx G.add_edge(a, b, edge_type=ty, weight=w): update the
attributes in place when the pair already exists, else append. -/
def Graph.addEdge (g : Graph) (a b : Nat) (ty : Str) (w : ℚ) : Graph :=
  if g.hasEdge a b then
    { g with edges := g.edges.map (fun e =>
        if e.onPair a b then { e with ety := ty, w := w } else e) }
  else
    { g with edges := g.edges ++ [⟨a, b, ty, w⟩] }

/-- networkx G.remove_edge (always guarded by has_edge in this code). -/
def Graph.removeEdge (g : Graph) (a b : Nat) : Graph :=
  { g with edges := g.edges.filter (fun e => !(e.onPair a b)) }

/-- networkx G.add_node. -/
def Graph.addNode (g : Graph) (n : Node) : Graph :=
  { g with nodes := g.nodes ++ [n] }

/-- Python `max(M.nodes())`. -/
def Graph.maxId (g : Graph) : Nat :=
  g.nodes.foldl (fun m n => max m n.nid) 0

/-- Lookup of a node's infra_type attribute: `M.nodes[u].get("infra_type", "")`. -/
def Graph.typeOf (g : Graph) (a : Nat) : Str :=
  match g.nodes.find? (fun n => n.nid = a) with
  | some n => n.itype
  | none => []

/-- Lookup of a node's label attribute: `M.nodes[u].get("label", "")`. -/
def Graph.labelOf (g : Graph) (a : Nat) : Str :=
  match g.nodes.find? (fun n => n.nid = a) with
  | some n => n.label
  | none => []

/-- One breadth-first expansion step over the node ids. -/
def Graph.expandOnce (g : Graph) (s : List Nat) : List Nat :=
  (g.nodes.map (·.nid)).filter (fun v => s.contains v || s.any (fun u => g.hasEdge u v))

/-- Iterated expansion (fuel-bounded breadth-first reachability). -/
def Graph.reachIter (g : Graph) : Nat → List Nat → List Nat
  | 0, s => s
  | n + 1, s => g.reachIter n (g.expandOnce s)

/-- networkx nx.is_connected, with the `_compute_stats` guard that an
empty graph reports False.  Every node must be reachable from the first
node; #nodes expansion rounds saturate reachability. -/
def Graph.isConnected (g : Graph) : Bool :=
  match g.nodes with
  | [] => false
  | n0 :: _ =>
    let r := g.reachIter g.nodes.length [n0.nid]
    g.nodes.all (fun n => r.contains n.nid)

/-- Label-to-id dictionary, in Python dict insertion order. -/
abbrev Lid := List (Str × Nat)

/-- Python `name in lid` / `lid[name]` (dict keys are unique, so the
first hit is the binding). -/
def lidLookup (lid : Lid) (k : Str) : Option Nat :=
  lid.findSome? (fun p => if p.1 = k then some p.2 else none)

/-- Python dict assignment `lid[label] = nxt`: overwrite in place when
the key exists (keeping its insertion position), else append. -/
def lidUpsert (lid : Lid) (k : Str) (v : Nat) : Lid :=
  if lid.any (·.1 = k) then
    lid.map (fun p => if p.1 = k then (k, v) else p)
  else lid ++ [(k, v)]

/-- Rule 1 of _fuzzy_find: exact label match. -/
def exactRule (name : Str) (lid : Lid) : Option Nat :=
  lidLookup lid name

/-- Rule 2 of _fuzzy_find: case-insensitive (lowered and stripped) match. -/
def ciRule (name : Str) (lid : Lid) : Option Nat :=
  let nl := stripStr (lowerStr name)
  lid.findSome? (fun p =>
    if stripStr (lowerStr p.1) = nl then some p.2 else none)

/-- Rule 3 of _fuzzy_find: case-insensitive substring containment in
either direction (the label is lowered but not stripped here, exactly
as in the code). -/
def substrRule (name : Str) (lid : Lid) : Option Nat :=
  let nl := stripStr (lowerStr name)
  lid.findSome? (fun p =>
    let ll := lowerStr p.1
    if isSubstr nl ll || isSubstr ll nl then some p.2 else none)

/-- Rule 4 of _fuzzy_find: at least two distinct shared words between
the lowered token sets. -/
def tokenRule (name : Str) (lid : Lid) : Option Nat :=
  let nw := (pyWords (stripStr (lowerStr name))).dedup
  lid.findSome? (fun p =>
    let lw := pyWords (lowerStr p.1)
    if 2 ≤ (nw.filter (fun w => lw.contains w)).length then some p.2 else none)

/-- _fuzzy_find: empty name resolves to nothing; otherwise the four
rules are tried in order and the first success returns early. -/
def fuzzyFind (name : Str) (lid : Lid) : Option Nat :=
  if name = [] then none
  else
    match exactRule name lid with
    | some n => some n
    | none =>
      match ciRule name lid with
      | some n => some n
      | none =>
        match substrRule name lid with
        | some n => some n
        | none => tokenRule name lid

/-- The lid built at the top of _apply_llm_directions: label -> id for
every node whose label is neither empty nor "Intersection". -/
def buildLid (nodes : List Node) : Lid :=
  nodes.foldl (fun lid n =>
    if n.label = [] || n.label = "Intersection".toList then lid
    else lidUpsert lid n.label n.nid) []

/-- The INFRASTRUCTURE config table: infra_type -> category. -/
def infraTable : List (Str × Str) :=
  [("Hospital".toList, "Emergency".toList),
   ("Fire Station".toList, "Emergency".toList),
   ("Police Station".toList, "Emergency".toList),
   ("Ambulance Depot".toList, "Emergency".toList),
   ("Bunker/Shelter".toList, "Shelter".toList),
   ("Evacuation Point".toList, "Shelter".toList),
   ("Food Service".toList, "Food".toList),
   ("Grocery Store".toList, "Food".toList),
   ("Water Supply".toList, "Food".toList),
   ("Power Plant".toList, "Utility".toList),
   ("Substation".toList, "Utility".toList),
   ("Telecom Tower".toList, "Utility".toList),
   ("Water Treatment".toList, "Utility".toList)]

/-- Python INFRASTRUCTURE.get(nt, {}).get("category", "Shelter"). -/
def infraCategoryD (nt : Str) : Str :=
  match infraTable.findSome? (fun p => if p.1 = nt then some p.2 else none) with
  | some c => c
  | none => "Shelter".toList

/-- remove_edges entry.  Optional JSON keys are Option-valued; a missing
"from"/"to" reads as the empty string via .get(…, ""). -/
structure RemoveEdgeSpec where
  frm : Str
  toN : Str
  etyO : Option Str
  reason : Str
  deriving Repr, DecidableEq

/-- add_edges entry. -/
structure AddEdgeSpec where
  frm : Str
  toN : Str
  etyO : Option Str
  reason : Str
  deriving Repr, DecidableEq

/-- add_nodes entry. -/
structure AddNodeSpec where
  labelO : Option Str
  typeO : Option Str
  connectTo : List Str
  etyO : Option Str
  reason : Str
  deriving Repr, DecidableEq

/-- reroute entry. -/
structure RerouteSpec where
  frm : Str
  toN : Str
  via : Str
  etyO : Option Str
  reason : Str
  deriving Repr, DecidableEq

/-- The mutation directive consumed by _apply_llm_directions (the
reasoning / priority_nodes fields are not read by the applier). -/
structure Directive where
  removeEdges : List RemoveEdgeSpec
  addEdges : List AddEdgeSpec
  addNodes : List AddNodeSpec
  reroutes : List RerouteSpec
  deriving Repr, DecidableEq

/-- ChangeLog entry; unused fields stay empty. -/
structure Change where
  phase : Str
  action : Str
  frm : Str := []
  toN : Str := []
  via : Str := []
  ety : Str := []
  nlabel : Str := []
  ntype : Str := []
  reason : Str := []
  deriving Repr, DecidableEq

/-- State threaded through the four operation phases of
_apply_llm_directions. -/
structure ApplyState where
  g : Graph
  changes : List Change
  applied : Nat
  lid : Lid
  deriving Repr, DecidableEq

/-- One remove_edges operation. -/
def removeStep (s : ApplyState) (es : RemoveEdgeSpec) : ApplyState :=
  let fr := fuzzyFind es.frm s.lid
  let toR := fuzzyFind es.toN s.lid
  let okChange : Change :=
    { phase := "llm_optimization".toList, action := "removed_edge".toList, frm := es.frm, toN := es.toN, ety := es.etyO.getD "?".toList, reason := es.reason }
  let skipChange : Change :=
    { phase := "llm_optimization".toList, action := "remove_edge_skipped".toList, frm := es.frm, toN := es.toN, reason := "Not found. LLM reason: ".toList ++ es.reason }
  match fr, toR with
  | some f, some t =>
    if s.g.hasEdge f t then
      { s with g := s.g.removeEdge f t, changes := s.changes ++ [okChange], applied := s.applied + 1 }
    else
      { s with changes := s.changes ++ [skipChange] }
  | _, _ =>
    { s with changes := s.changes ++ [skipChange] }

/-- One add_edges operation; note the constant weight 1.0. -/
def addStep (s : ApplyState) (es : AddEdgeSpec) : ApplyState :=
  let fr := fuzzyFind es.frm s.lid
  let toR := fuzzyFind es.toN s.lid
  let et := es.etyO.getD "emergency".toList
  let okChange : Change :=
    { phase := "llm_optimization".toList, action := "added_edge".toList, frm := es.frm, toN := es.toN, ety := et, reason := es.reason }
  let skipChange : Change :=
    { phase := "llm_optimization".toList, action := "add_edge_skipped".toList, frm := es.frm, toN := es.toN, reason := "Node not found. LLM reason: ".toList ++ es.reason }
  match fr, toR with
  | some f, some t =>
    { s with g := s.g.addEdge f t et 1, changes := s.changes ++ [okChange], applied := s.applied + 1 }
  | _, _ =>
    { s with changes := s.changes ++ [skipChange] }

/-- One connect_to resolution of an add_nodes operation (weight 1.0). -/
def connectStep (lid : Lid) (ty : Str) (nxt : Nat) (g : Graph) (cl : Str) : Graph :=
  match fuzzyFind cl lid with
  | some cid => g.addEdge nxt cid ty 1
  | none => g

/-- One add_nodes operation (also threads the fresh-id counter); the
new label enters the lid before the connect_to resolutions run. -/
def addNodeStep (sn : ApplyState × Nat) (ns : AddNodeSpec) : ApplyState × Nat :=
  let s := sn.1
  let nxt := sn.2
  let label := ns.labelO.getD ("Emergency_Node_".toList ++ Nat.toDigits 10 nxt)
  let nt := ns.typeO.getD "Bunker/Shelter".toList
  let cat := infraCategoryD nt
  let lid1 := lidUpsert s.lid label nxt
  let g1 := s.g.addNode ⟨nxt, label, nt, cat⟩
  let g2 := ns.connectTo.foldl
    (connectStep lid1 (ns.etyO.getD "emergency".toList) nxt) g1
  let addChange : Change :=
    { phase := "llm_optimization".toList, action := "added_node".toList, nlabel := label, ntype := nt, reason := ns.reason }
  ({ s with g := g2, lid := lid1, changes := s.changes ++ [addChange], applied := s.applied + 1 }, nxt + 1)

/-- One reroute operation; the added edges also carry constant weight 1.0. -/
def rerouteStep (s : ApplyState) (rt : RerouteSpec) : ApplyState :=
  let fr := fuzzyFind rt.frm s.lid
  let toR := fuzzyFind rt.toN s.lid
  let viaR := fuzzyFind rt.via s.lid
  let okChange : Change :=
    { phase := "llm_optimization".toList, action := "rerouted".toList, frm := rt.frm, toN := rt.toN, via := rt.via, reason := rt.reason }
  let skipChange : Change :=
    { phase := "llm_optimization".toList, action := "reroute_skipped".toList, frm := rt.frm, toN := rt.toN, via := rt.via, reason := "Node not found".toList }
  match fr, toR, viaR with
  | some f, some t, some vi =>
    let et := rt.etyO.getD "emergency".toList
    let g1 := if s.g.hasEdge f t then s.g.removeEdge f t else s.g
    let g2 := (g1.addEdge f vi et 1).addEdge vi t et 1
    { s with g := g2, changes := s.changes ++ [okChange], applied := s.applied + 1 }
  | _, _, _ =>
    { s with changes := s.changes ++ [skipChange] }

/-- _apply_llm_directions: mutate a copy of the graph according to the
directive, returning the mutated graph, the change log, and the count of
operations that actually applied. -/
def applyLlmDirections (g : Graph) (dir : Directive) : Graph × List Change × Nat :=
  let s0 : ApplyState := ⟨g, [], 0, buildLid g.nodes⟩
  let s1 := dir.removeEdges.foldl removeStep s0
  let s2 := dir.addEdges.foldl addStep s1
  let nxt0 := if s2.g.nodes = [] then 0 else s2.g.maxId + 1
  let s3 := (dir.addNodes.foldl addNodeStep (s2, nxt0)).1
  let s4 := dir.reroutes.foldl rerouteStep s3
  (s4.g, s4.changes, s4.applied)

/-- The NON_CRITICAL_TYPES set of _apply_programmatic_pruning. -/
def nonCriticalTypes : List Str :=
  ["Grocery Store".toList, "Food Service".toList, "Telecom Tower".toList,
   "Substation".toList, "Water Supply".toList]

/-- An edge queued for removal by the pruning pass (endpoint ids,
endpoint labels, edge type, log reason). -/
structure MarkEntry where
  mu : Nat
  mv : Nat
  mul : Str
  mvl : Str
  mety : Str
  mreason : Str
  deriving Repr, DecidableEq

/-- Rules 5-7 of the pruning elif chain (reached when rules 1-4 all
fail); `ctr` indexes the next RandomState(99) draw.  The numeric
interpolations of the source's log strings are elided from the reasons. -/
def pruneRulesTail (g : Graph) (quakeIn : Bool) (u : Nat → ℚ)
    (e : GEdge) (ut vt ul vl : Str) (mk : List MarkEntry) (ctr : Nat) :
    List MarkEntry × Nat :=
  if e.ety = "power".toList ∧ quakeIn then
    if ¬ (vt = "Hospital".toList ∨ vt = "Power Plant".toList) ∧
       ¬ (ut = "Hospital".toList ∨ ut = "Power Plant".toList) then
      (mk ++ [⟨e.u, e.v, ul, vl, e.ety,
        "Power line to non-critical node — vulnerable to earthquake collapse".toList⟩], ctr)
    else (mk, ctr)
  else if e.ety = "water".toList ∧ nonCriticalTypes.contains ut ∧
          nonCriticalTypes.contains vt then
    (mk ++ [⟨e.u, e.v, ul, vl, e.ety, "Water pipe between non-critical nodes".toList⟩], ctr)
  else if e.ety = "road".toList then
    if g.hasEdge e.u e.v then
      if e.ety = "emergency".toList ∨ e.ety = "power".toList then (mk, ctr)
      else if u ctr < 3 / 10 then
        (mk ++ [⟨e.u, e.v, ul, vl, e.ety,
          "Redundant road — probabilistic pruning for simpler network".toList⟩], ctr + 1)
      else (mk, ctr + 1)
    else (mk, ctr)
  else (mk, ctr)

/-- One edge of the pruning pass: the elif chain of rules 1-7, threading
the RandomState(99) draw counter (a draw happens only where the source
short-circuit actually reaches `rng.random()`). -/
def pruneMarkStep (g : Graph) (floodIn quakeIn : Bool) (u : Nat → ℚ)
    (st : List MarkEntry × Nat) (e : GEdge) : List MarkEntry × Nat :=
  let mk := st.1
  let ctr := st.2
  let ut := g.typeOf e.u
  let vt := g.typeOf e.v
  let ul := g.labelOf e.u
  let vl := g.labelOf e.v
  if e.ety = "road".toList ∧ nonCriticalTypes.contains ut ∧
     nonCriticalTypes.contains vt then
    (mk ++ [⟨e.u, e.v, ul, vl, e.ety,
      ("Road between non-critical ".toList ++ ut ++ " and ".toList ++ vt ++
       " — unnecessary during disaster".toList)⟩], ctr)
  else if e.ety = "road".toList ∧ e.w > 5 then
    (mk ++ [⟨e.u, e.v, ul, vl, e.ety,
      "Long-distance road — vulnerable to disruption".toList⟩], ctr)
  else if e.ety = "road".toList ∧
          (ut = "intersection".toList ∨ vt = "intersection".toList) then
    (mk ++ [⟨e.u, e.v, ul, vl, e.ety,
      "Road through intersection — not critical infrastructure".toList⟩], ctr)
  else if e.ety = "road".toList ∧ floodIn then
    if u ctr < 1 / 2 then
      (mk ++ [⟨e.u, e.v, ul, vl, e.ety, "Road vulnerable to flood damage".toList⟩], ctr + 1)
    else pruneRulesTail g quakeIn u e ut vt ul vl mk (ctr + 1)
  else pruneRulesTail g quakeIn u e ut vt ul vl mk ctr

/-- Application of the queued removals (each guarded by has_edge). -/
def pruneRemovals (st : Graph × List Change) (m : MarkEntry) : Graph × List Change :=
  let g := st.1
  let ch := st.2
  if g.hasEdge m.mu m.mv then
    let c : Change :=
      { phase := "programmatic_pruning".toList, action := "removed_edge".toList, frm := m.mul, toN := m.mvl, ety := m.mety, reason := m.mreason }
    (g.removeEdge m.mu m.mv, ch ++ [c])
  else (g, ch)

/-- One emergency-edge addition of the pruner: link n to the fixed
target (the first shelter for hospitals, the first hospital for fire
stations) unless already connected. -/
def emAddStep (target : Nat) (reason : Str) (st : Graph × List Change)
    (n : Nat) : Graph × List Change :=
  let gA := st.1
  if gA.hasEdge n target then st
  else
    let c : Change :=
      { phase := "programmatic_pruning".toList, action := "added_edge".toList, frm := gA.labelOf n, toN := gA.labelOf target, ety := "emergency".toList, reason := reason }
    (gA.addEdge n target "emergency".toList 1, st.2 ++ [c])

/-- _apply_programmatic_pruning: the deterministic fallback pruner; `u`
is the RandomState(99) uniform draw stream.  Python's
`min(shelters, key=<constant>)` and `hospitals[0]` both pick the first
list element, so the "nearest" targets are the first shelter and the
first hospital in node order. -/
def applyProgrammaticPruning (g : Graph) (calamities : List Str)
    (u : Nat → ℚ) : Graph × List Change :=
  let low := calamities.map lowerStr
  let floodIn := low.contains "flood".toList
  let quakeIn := low.contains "earthquake".toList
  let marked := (g.edges.foldl (pruneMarkStep g floodIn quakeIn u) ([], 0)).1
  let gr := marked.foldl pruneRemovals (g, [])
  let g1 := gr.1
  let ch1 := gr.2
  let hospitals := (g1.nodes.filter (·.itype = "Hospital".toList)).map (·.nid)
  let shelters := (g1.nodes.filter (fun n =>
    n.itype = "Bunker/Shelter".toList ∨ n.itype = "Evacuation Point".toList)).map (·.nid)
  let fires := (g1.nodes.filter (·.itype = "Fire Station".toList)).map (·.nid)
  let afterHosp :=
    match hospitals, shelters with
    | _ :: _, s0 :: _ =>
      hospitals.foldl
        (emAddStep s0 "Emergency evacuation path: hospital to nearest shelter".toList)
        (g1, ch1)
    | _, _ => (g1, ch1)
  match fires, hospitals with
  | _ :: _, h0 :: _ =>
    fires.foldl
      (emAddStep h0 "Emergency response route: fire station to hospital".toList)
      afterHosp
  | _, _ => afterHosp

/-- Result of the mitigate pipeline's mutation stage (steps 5 and 5b). -/
structure MitigateResult where
  g : Graph
  changes : List Change
  llmApplied : Nat
  deriving Repr, DecidableEq

/-- Steps 5 and 5b of mitigate: apply the directive, then run the
programmatic pruner exactly when fewer than 3 operations applied. -/
def mitigateCore (g : Graph) (dir : Directive) (calamities : List Str)
    (u : Nat → ℚ) : MitigateResult :=
  let r := applyLlmDirections g dir
  let m := r.1
  let ch := r.2.1
  let a := r.2.2
  if a < 3 then
    let pr := applyProgrammaticPruning m calamities u
    ⟨pr.1, ch ++ pr.2, a⟩
  else ⟨m, ch, a⟩

/-- Comparison `norm < t` expressed on the squared distance d2
(equivalent for the real square root: the norm is nonnegative). -/
def distLt (d2 t : ℚ) : Prop := 0 < t ∧ d2 < t * t

instance (d2 t : ℚ) : Decidable (distLt d2 t) := by
  unfold distLt; infer_instance

/-- A numpy RandomState: a deterministic draw stream plus the index of
the next draw. -/
structure RS where
  u : Nat → ℚ
  i : Nat

/-- One raw uniform [0,1) draw. -/
def RS.draw (r : RS) : ℚ × RS := (r.u r.i, ⟨r.u, r.i + 1⟩)

/-- rng.uniform(a, b). -/
def RS.uniform (r : RS) (a b : ℚ) : ℚ × RS :=
  let d := r.draw
  (a + (b - a) * d.1, d.2)

/-- rng.randint(a, b): an integer in [a, b). -/
def RS.randint (r : RS) (a b : Nat) : Nat × RS :=
  let d := r.draw
  (a + (Int.floor (d.1 * ((b : ℚ) - (a : ℚ)))).toNat, d.2)

/-- Python int() on the nonnegative floats appearing here. -/
def pyInt (q : ℚ) : Nat := (Int.floor q).toNat

/-- Lookup in the pos dictionary (node id -> position). -/
def posLookup (pos : List (Nat × Pos)) (n : Nat) : Pos :=
  match pos.findSome? (fun p => if p.1 = n then some p.2 else none) with
  | some q => q
  | none => (0, 0)

/-- The KDTree query order: indices into pa sorted ascending by
distance to the query point (ties in an arbitrary fixed order). -/
def sortByDist (pa : List Pos) (q : Pos) : List Nat :=
  List.insertionSort
    (fun a b => dsq q (pa.getD a (0, 0)) ≤ dsq q (pa.getD b (0, 0)))
    (List.range pa.length)

/-- The abstract models of the floating-point library functions used by
the generator: float sqrt (for norm-valued weights) and float cos/sin. -/
structure FloatModel where
  sq : ℚ → ℚ
  cosQ : ℚ → ℚ
  sinQ : ℚ → ℚ

/-- The exact rational value of the float64 constant np.pi. -/
def piQ : ℚ := 884279719003555 / 281474976710656

/-- A Delaunay triangulation oracle: the simplices of scipy's
triangulation, or none when the constructor raises (the except path). -/
abbrev TriOracle := List Pos → Option (List (Nat × Nat × Nat))

/-- The Delaunay branch of _add_road_edges: only when at least 4 nodes,
each triangle side becomes a road edge unless it reaches 0.6 of the
city radius (the except path leaves the graph untouched). -/
def triPass (tri : TriOracle) (sq : ℚ → ℚ) (nodesL : List Nat)
    (pa : List Pos) (cr : ℚ) (g : Graph) : Graph :=
  if 4 ≤ pa.length then
    match tri pa with
    | none => g
    | some simplices =>
      simplices.foldl (fun gA s =>
        [(s.1, s.2.1), (s.2.1, s.2.2), (s.2.2, s.1)].foldl (fun gB ij =>
          let n1 := nodesL.getD ij.1 0
          let n2 := nodesL.getD ij.2 0
          if gB.hasEdge n1 n2 then gB
          else
            let d2 := dsq (pa.getD ij.1 (0, 0)) (pa.getD ij.2 (0, 0))
            if distLt d2 (cr * (3 / 5)) then gB.addEdge n1 n2 "road".toList (sq d2)
            else gB) gA) g
  else g

/-- One neighbor link of the k-nearest-neighbor pass. -/
def knnStep (nodesL : List Nat) (pa : List Pos) (sq : ℚ → ℚ) (i : Nat)
    (gB : Graph) (ji : Nat) : Graph :=
  let node := nodesL.getD i 0
  let nbr := nodesL.getD ji 0
  if gB.hasEdge node nbr then gB
  else gB.addEdge node nbr "road".toList (sq (dsq (pa.getD i (0, 0)) (pa.getD ji (0, 0))))

/-- The KDTree pass of _add_road_edges: each node is linked to its
k = min(4, n-1) nearest neighbors (the query returns k+1 indices whose
first entry is the query point itself and is skipped). -/
def knnPass (nodesL : List Nat) (pa : List Pos) (sq : ℚ → ℚ) (g : Graph) : Graph :=
  let k := min 4 (nodesL.length - 1)
  (List.range nodesL.length).foldl (fun gA i =>
    let idxs := ((sortByDist pa (pa.getD i (0, 0))).take (k + 1)).drop 1
    idxs.foldl (knnStep nodesL pa sq i) gA) g

/-- _add_road_edges: the Delaunay pass followed by the nearest-neighbor
pass. -/
def addRoadEdges (tri : TriOracle) (sq : ℚ → ℚ) (g : Graph)
    (pos : List (Nat × Pos)) (cr : ℚ) : Graph :=
  let nodesL := g.nodes.map (·.nid)
  let pa := nodesL.map (posLookup pos)
  knnPass nodesL pa sq (triPass tri sq nodesL pa cr g)

/-- infra_nodes.get(type, []). -/
def infGet (infra : List (Str × List Nat)) (k : Str) : List Nat :=
  match infra.findSome? (fun p => if p.1 = k then some p.2 else none) with
  | some l => l
  | none => []

/-- _add_utility_edges: power, water and emergency wiring; u42 is the
RandomState(42) stream used for the probabilistic substation links. -/
def addUtilityEdges (sq : ℚ → ℚ) (g : Graph) (pos : List (Nat × Pos))
    (infra : List (Str × List Nat)) (cr : ℚ) (u42 : Nat → ℚ) : Graph :=
  let norm2 := fun a b => dsq (posLookup pos a) (posLookup pos b)
  let g1 := (infGet infra "Power Plant".toList).foldl (fun gA pp =>
    let gB := (infGet infra "Substation".toList).foldl (fun gS sub =>
      gS.addEdge pp sub "power".toList (sq (norm2 pp sub))) gA
    (infGet infra "Hospital".toList).foldl (fun gH h =>
      gH.addEdge pp h "power".toList (sq (norm2 pp h))) gB) g
  let subPass := (infGet infra "Substation".toList).foldl (fun st sub =>
    (g1.nodes.map (·.nid)).foldl (fun st2 nid =>
      let gA := st2.1
      let ctr := st2.2
      let it := g1.typeOf nid
      if it = "intersection".toList ∨ it = "Substation".toList ∨
         it = "Power Plant".toList then st2
      else
        let d2 := norm2 nid sub
        if distLt d2 (cr * (2 / 5)) then
          if u42 ctr < 3 / 10 then
            (gA.addEdge sub nid "power".toList (sq d2), ctr + 1)
          else (gA, ctr + 1)
        else st2) st) (g1, 0)
  let g2 := subPass.1
  let g3 := (infGet infra "Water Treatment".toList).foldl (fun gA wt =>
    let gB := (infGet infra "Water Supply".toList).foldl (fun gS ws =>
      gS.addEdge wt ws "water".toList (sq (norm2 wt ws))) gA
    (infGet infra "Hospital".toList).foldl (fun gH h =>
      gH.addEdge wt h "water".toList (sq (norm2 wt h))) gB) g2
  let emNodes :=
    ["Hospital".toList, "Fire Station".toList, "Police Station".toList,
     "Ambulance Depot".toList].foldl (fun acc et => acc ++ infGet infra et) []
  (List.range emNodes.length).foldl (fun gA i =>
    ((emNodes.drop (i + 1)).foldl (fun gB n2 =>
      let n1 := emNodes.getD i 0
      let d2 := norm2 n1 n2
      if distLt d2 (cr * (1 / 2)) then gB.addEdge n1 n2 "emergency".toList (sq d2)
      else gB) gA)) g3

/-- The seed choice of _generate_procedural:
`sd = seed if seed else _city_seed(city_name)` — a Python truthiness
test, so an explicit 0 falls back to the name-derived md5 hash. -/
def seedSelect (md5h : Str → Nat) (seed : Option Nat) (name : Str) : Nat :=
  match seed with
  | some s => if s ≠ 0 then s else md5h name
  | none => md5h name

/-- The rejection-sampling placement closure _pl: up to 50 attempts at
spacing md from every already-placed point, then a widened fallback
sample is accepted unconditionally. -/
def plLoop (ap : List Pos) (cx cy sp md : ℚ) : RS → Nat → Pos × RS
  | r, 0 =>
    let a1 := r.uniform (-(sp * (3 / 2))) (sp * (3 / 2))
    let a2 := a1.2.uniform (-(sp * (3 / 2))) (sp * (3 / 2))
    ((cx + a1.1, cy + a2.1), a2.2)
  | r, f + 1 =>
    let a1 := r.uniform (-sp) sp
    let a2 := a1.2.uniform (-sp) sp
    let x := cx + a1.1
    let y := cy + a2.1
    if ap.all (fun p => ¬ distLt (dsq (x, y) p) md) then ((x, y), a2.2)
    else plLoop ap cx cy sp md a2.2 f

/-- infra_nodes[it].append(nid). -/
def infraAppend (infra : List (Str × List Nat)) (it : Str) (n : Nat) :
    List (Str × List Nat) :=
  infra.map (fun p => if p.1 = it then (p.1, p.2 ++ [n]) else p)

/-- State threaded through the placement loops of _generate_procedural. -/
structure PlaceState where
  g : Graph
  pos : List (Nat × Pos)
  ap : List Pos
  infra : List (Str × List Nat)
  nid : Nat
  r : RS

/-- Placement of node number i of infra type it (the per-type branch of
the placement loop; INFRASTRUCTURE[it]["category"] agrees with
infraCategoryD on every key of the table). -/
def placeOne (fm : FloatModel) (cr : ℚ) (hc : List Pos) (it : Str) (md : ℚ)
    (st : PlaceState) (i : Nat) : PlaceState :=
  let nm := it ++ " #".toList ++ Nat.toDigits 10 (i + 1)
  let res : Pos × RS :=
    if it = "Power Plant".toList ∨ it = "Water Treatment".toList then
      let a1 := st.r.uniform 0 (2 * piQ)
      let a2 := a1.2.uniform 0 (3 / 10)
      let rr := cr * (7 / 10 + a2.1)
      plLoop st.ap (rr * fm.cosQ a1.1) (rr * fm.sinQ a1.1) (cr * (3 / 20)) md a2.2 50
    else if it = "Bunker/Shelter".toList ∨ it = "Evacuation Point".toList then
      let hood := hc.getD (i % hc.length) (0, 0)
      plLoop st.ap hood.1 hood.2 (cr * (7 / 20)) md st.r 50
    else if it = "Hospital".toList then
      let hood := if i = 0 then hc.getD 0 (0, 0)
                  else hc.getD (min i (hc.length - 1)) (0, 0)
      plLoop st.ap hood.1 hood.2 (cr * (1 / 4)) md st.r 50
    else if it = "Fire Station".toList ∨ it = "Police Station".toList then
      let hood := hc.getD (i % hc.length) (0, 0)
      plLoop st.ap hood.1 hood.2 (cr * (1 / 5)) md st.r 50
    else if it = "Substation".toList then
      let h1 := hc.getD (i % hc.length) (0, 0)
      let h2 := hc.getD ((i + 1) % hc.length) (0, 0)
      let a1 := st.r.uniform (-(1 / 2)) (1 / 2)
      let a2 := a1.2.uniform (-(1 / 2)) (1 / 2)
      plLoop st.ap ((h1.1 + h2.1) / 2 + a1.1) ((h1.2 + h2.2) / 2 + a2.1)
        (cr * (1 / 5)) md a2.2 50
    else if it = "Telecom Tower".toList then
      let a1 := st.r.uniform 0 (2 * piQ)
      let a2 := a1.2.uniform 0 (1 / 2)
      let rr := cr * (3 / 10 + a2.1)
      plLoop st.ap (rr * fm.cosQ a1.1) (rr * fm.sinQ a1.1) (cr * (3 / 20)) md a2.2 50
    else
      let a1 := st.r.randint 0 hc.length
      let hood := hc.getD a1.1 (0, 0)
      plLoop st.ap hood.1 hood.2 (cr * (1 / 4)) (md * (3 / 5)) a1.2 50
  { g := st.g.addNode ⟨st.nid, nm, it, infraCategoryD it⟩,
    pos := st.pos ++ [(st.nid, res.1)],
    ap := st.ap ++ [res.1],
    infra := infraAppend st.infra it st.nid,
    nid := st.nid + 1,
    r := res.2 }

/-- One iteration of the intersection generation loop. -/
def placeIntersection (cr : ℚ) (hc : List Pos) (st : PlaceState) (i : Nat) :
    PlaceState :=
  let res : Pos × RS :=
    if i < hc.length then
      let dr := st.r.draw
      if dr.1 < 3 / 5 then
        let h1 := hc.getD (i % hc.length) (0, 0)
        let rint := dr.2.randint 1 (max 2 hc.length)
        let h2 := hc.getD ((i + rint.1) % hc.length) (0, 0)
        let tv := rint.2.uniform (1 / 5) (4 / 5)
        let ux := tv.2.uniform (-(3 / 10)) (3 / 10)
        let uy := ux.2.uniform (-(3 / 10)) (3 / 10)
        ((h1.1 * (1 - tv.1) + h2.1 * tv.1 + ux.1,
          h1.2 * (1 - tv.1) + h2.2 * tv.1 + uy.1), uy.2)
      else
        let ri := dr.2.randint 0 hc.length
        let hood := hc.getD ri.1 (0, 0)
        let ux := ri.2.uniform (-(cr * (3 / 10))) (cr * (3 / 10))
        let uy := ux.2.uniform (-(cr * (3 / 10))) (cr * (3 / 10))
        ((hood.1 + ux.1, hood.2 + uy.1), uy.2)
    else
      let ri := st.r.randint 0 hc.length
      let hood := hc.getD ri.1 (0, 0)
      let ux := ri.2.uniform (-(cr * (3 / 10))) (cr * (3 / 10))
      let uy := ux.2.uniform (-(cr * (3 / 10))) (cr * (3 / 10))
      ((hood.1 + ux.1, hood.2 + uy.1), uy.2)
  { st with
    g := st.g.addNode ⟨st.nid, "Intersection".toList, "intersection".toList, "road".toList⟩,
    pos := st.pos ++ [(st.nid, res.1)],
    nid := st.nid + 1,
    r := res.2 }

/-- Result of _generate_procedural. -/
structure GenOut where
  g : Graph
  pos : List (Nat × Pos)
  infra : List (Str × List Nat)
  cr : ℚ
  deriving DecidableEq

/-- _generate_procedural: the full procedural city generator.  md5h is
the md5-based _city_seed hash; shaB0/shaB1 are the first two byte slices
of the sha256 hex digest of the name; rngOf maps a seed to the draw
stream of numpy RandomState(seed); tri is the Delaunay oracle. -/
def generateProcedural (fm : FloatModel) (md5h shaB0 shaB1 : Str → Nat)
    (rngOf : Nat → Nat → ℚ) (tri : TriOracle) (name : Str)
    (seed : Option Nat) : GenOut :=
  let sd := seedSelect md5h seed name
  let r0 : RS := ⟨rngOf sd, 0⟩
  let cr : ℚ := 4 + (shaB0 name : ℚ) / 256 * 3
  let dens : ℚ := 3 / 5 + (shaB1 name : ℚ) / 256 * (3 / 5)
  let dnh := r0.randint 0 3
  let nH := max 4 (pyInt (5 * dens + (dnh.1 : ℚ)))
  let hcr := (List.range nH).foldl (fun (st : List Pos × RS) i =>
    let u1 := st.2.uniform (-(2 / 5)) (2 / 5)
    let a := 2 * piQ * (i : ℚ) / (nH : ℚ) + u1.1
    let u2 := u1.2.uniform 0 (11 / 20)
    let rr := cr * (1 / 4 + u2.1)
    (st.1 ++ [(rr * fm.cosQ a, rr * fm.sinQ a)], u2.2)) ([], dnh.2)
  let u3 := hcr.2.uniform (-(1 / 2)) (1 / 2)
  let u4 := u3.2.uniform (-(1 / 2)) (1 / 2)
  let hc : List Pos := (u3.1, u4.1) :: hcr.1
  let d1 := u4.2.randint 0 3
  let cHosp := max 2 (pyInt (3 * dens + (d1.1 : ℚ)))
  let d2 := d1.2.randint 0 2
  let cFire := max 2 (pyInt (4 * dens + (d2.1 : ℚ)))
  let d3 := d2.2.randint 0 2
  let cPol := max 2 (pyInt (3 * dens + (d3.1 : ℚ)))
  let cAmb := max 1 (pyInt (2 * dens))
  let d4 := d3.2.randint 0 2
  let cBunk := max 2 (pyInt (3 * dens + (d4.1 : ℚ)))
  let cEvac := max 1 (pyInt (2 * dens))
  let d5 := d4.2.randint 0 3
  let cFood := max 3 (pyInt (5 * dens + (d5.1 : ℚ)))
  let d6 := d5.2.randint 0 2
  let cGroc := max 2 (pyInt (4 * dens + (d6.1 : ℚ)))
  let cWatS := max 2 (pyInt (3 * dens))
  let cPow := max 1 (pyInt ((3 / 2) * dens))
  let d7 := d6.2.randint 0 2
  let cSub := max 2 (pyInt (4 * dens + (d7.1 : ℚ)))
  let d8 := d7.2.randint 0 2
  let cTel := max 2 (pyInt (3 * dens + (d8.1 : ℚ)))
  let cWatT := max 1 (pyInt ((3 / 2) * dens))
  let nc : List (Str × Nat) :=
    [("Hospital".toList, cHosp), ("Fire Station".toList, cFire),
     ("Police Station".toList, cPol), ("Ambulance Depot".toList, cAmb),
     ("Bunker/Shelter".toList, cBunk), ("Evacuation Point".toList, cEvac),
     ("Food Service".toList, cFood), ("Grocery Store".toList, cGroc),
     ("Water Supply".toList, cWatS), ("Power Plant".toList, cPow),
     ("Substation".toList, cSub), ("Telecom Tower".toList, cTel),
     ("Water Treatment".toList, cWatT)]
  let ms : List (Str × ℚ) :=
    [("Hospital".toList, cr * (2 / 5)), ("Fire Station".toList, cr * (3 / 10)),
     ("Police Station".toList, cr * (7 / 20)), ("Ambulance Depot".toList, cr * (3 / 10)),
     ("Bunker/Shelter".toList, cr * (3 / 10)), ("Evacuation Point".toList, cr * (7 / 20)),
     ("Food Service".toList, cr * (1 / 5)), ("Grocery Store".toList, cr * (1 / 5)),
     ("Water Supply".toList, cr * (7 / 20)), ("Power Plant".toList, cr * (1 / 2)),
     ("Substation".toList, cr * (1 / 4)), ("Telecom Tower".toList, cr * (7 / 20)),
     ("Water Treatment".toList, cr * (1 / 2))]
  let st0 : PlaceState := ⟨⟨[], []⟩, [], [], [], 0, d8.2⟩
  let st1 := nc.foldl (fun st tc =>
    let it := tc.1
    let md := match ms.findSome? (fun p => if p.1 = it then some p.2 else none) with
              | some v => v
              | none => cr * (1 / 5)
    let stA := { st with infra := st.infra ++ [(it, [])] }
    (List.range tc.2).foldl (placeOne fm cr hc it md) stA) st0
  let dInt := st1.r.randint 0 12
  let interCount := pyInt (25 * dens + (dInt.1 : ℚ))
  let st2 := (List.range interCount).foldl (placeIntersection cr hc)
    { st1 with r := dInt.2 }
  let gR := addRoadEdges tri fm.sq st2.g st2.pos cr
  let gU := addUtilityEdges fm.sq gR st2.pos st2.infra cr (rngOf 42)
  ⟨gU, st2.pos, st2.infra, cr⟩

/-- Constant-zero uniform stream (a concrete RandomState model for
closed evaluations). -/
def zeroStream : Nat → ℚ := fun _ => 0

/-- A 6-edge graph whose edges 0-2, 1-3, 0-3 form a removable cut
leaving the two components {0,1} and {2,3}. -/
def bridgeGraph : Graph :=
  ⟨[⟨0, "Hospital #1".toList, "Hospital".toList, "Emergency".toList⟩,
    ⟨1, "Fire Station #1".toList, "Fire Station".toList, "Emergency".toList⟩,
    ⟨2, "Bunker/Shelter #1".toList, "Bunker/Shelter".toList, "Shelter".toList⟩,
    ⟨3, "Police Station #1".toList, "Police Station".toList, "Emergency".toList⟩],
   [⟨0, 1, "road".toList, 1⟩, ⟨2, 3, "road".toList, 1⟩,
    ⟨0, 2, "road".toList, 1⟩, ⟨1, 3, "road".toList, 1⟩,
    ⟨0, 3, "road".toList, 1⟩]⟩

/-- A directive removing the three cut edges of bridgeGraph (all labels
resolve exactly, so all 3 operations apply). -/
def cutDirective : Directive :=
  ⟨[⟨"Hospital #1".toList, "Bunker/Shelter #1".toList, some "road".toList, "cut".toList⟩,
    ⟨"Fire Station #1".toList, "Police Station #1".toList, some "road".toList, "cut".toList⟩,
    ⟨"Hospital #1".toList, "Police Station #1".toList, some "road".toList, "cut".toList⟩],
   [], [], []⟩

/-- A 2-node edgeless graph whose node positions are 5 units apart. -/
def twoNodeGraph : Graph :=
  ⟨[⟨0, "Hospital #1".toList, "Hospital".toList, "Emergency".toList⟩,
    ⟨1, "Fire Station #1".toList, "Fire Station".toList, "Emergency".toList⟩],
   []⟩

/-- Positions of twoNodeGraph: (0,0) and (3,4), Euclidean distance 5. -/
def twoNodePos : List (Nat × Pos) := [(0, (0, 0)), (1, (3, 4))]

/-- A directive adding one edge between the two nodes of twoNodeGraph. -/
def addOneDirective : Directive :=
  ⟨[], [⟨"Hospital #1".toList, "Fire Station #1".toList, none, "link".toList⟩], [], []⟩

/-- A hospital joined to an intersection node by an emergency-typed edge. -/
def interGraph : Graph :=
  ⟨[⟨0, "Hospital #1".toList, "Hospital".toList, "Emergency".toList⟩,
    ⟨1, "Intersection".toList, "intersection".toList, "road".toList⟩],
   [⟨0, 1, "emergency".toList, 1⟩]⟩

/-- The empty directive (the absent-or-failed-LLM input of mitigate). -/
def emptyDirective : Directive := ⟨[], [], [], []⟩

/-- A directive whose only operation references a label that resolves
against nothing in bridgeGraph. -/
def ghostDirective : Directive :=
  ⟨[⟨"Ghost Plaza Q9X".toList, "Phantom Dock Z7Y".toList, some "road".toList,
     "bogus".toList⟩], [], [], []⟩

/-- The minimal-graph scenario: one Hospital, one Fire Station, one
Power Plant, and no edges yet. -/
def threeNodeGraph : Graph :=
  ⟨[⟨0, "Hospital #1".toList, "Hospital".toList, "Emergency".toList⟩,
    ⟨1, "Fire Station #1".toList, "Fire Station".toList, "Emergency".toList⟩,
    ⟨2, "Power Plant #1".toList, "Power Plant".toList, "Utility".toList⟩],
   []⟩

/-- A hospital joined to an intersection node by a road-typed edge. -/
def roadInterGraph : Graph :=
  ⟨[⟨0, "Hospital #1".toList, "Hospital".toList, "Emergency".toList⟩,
    ⟨1, "Intersection".toList, "intersection".toList, "road".toList⟩],
   [⟨0, 1, "road".toList, 1⟩]⟩

/-- A triangulation oracle that always raises (concrete instance for
closed statements). -/
def noneOracle : TriOracle := fun _ => none

/-- Identity model of float sqrt (concrete instance for closed
statements; the theorems hold for every model). -/
def idQ : ℚ → ℚ := fun q => q

/-- A concrete FloatModel instance for closed statements. -/
def constFM : FloatModel := ⟨idQ, idQ, idQ⟩

/-- A concrete hash-function instance for closed statements. -/
def constHash : Str → Nat := fun _ => 5

/-- A concrete seed-to-stream RandomState model for closed statements. -/
def constRngOf : Nat → Nat → ℚ := fun _ _ => 0

/-- Whether every label referenced by the remove_edges, add_edges and
reroute entries of a directive fails fuzzy resolution against the
graph's label dictionary. -/
def unresolvedAll (g : Graph) (dir : Directive) : Bool :=
  let lid := buildLid g.nodes
  dir.removeEdges.all (fun es =>
    (fuzzyFind es.frm lid).isNone && (fuzzyFind es.toN lid).isNone) &&
  dir.addEdges.all (fun es =>
    (fuzzyFind es.frm lid).isNone && (fuzzyFind es.toN lid).isNone) &&
  dir.reroutes.all (fun rt =>
    (fuzzyFind rt.frm lid).isNone && (fuzzyFind rt.toN lid).isNone &&
    (fuzzyFind rt.via lid).isNone)

/-- The property the spec asserts of directive-added edges: the stored
weight equals the Euclidean distance between the endpoints' current
positions (stated on squares, equivalently for the real square root:
the weight is nonnegative and its square is the squared distance). -/
def weightIsEuclid (pos : List (Nat × Pos)) (e : GEdge) : Prop :=
  0 ≤ e.w ∧ e.w * e.w = dsq (posLookup pos e.u) (posLookup pos e.v)

instance (pos : List (Nat × Pos)) (e : GEdge) : Decidable (weightIsEuclid pos e) := by
  unfold weightIsEuclid
  infer_instance

/-- The three skip actions the directive applier can log. -/
def skipActions : List Str :=
  ["remove_edge_skipped".toList, "add_edge_skipped".toList,
   "reroute_skipped".toList]

/-- The emergency_path edge type (introduced only by the older server
variant of the applier; see the connectivity-repair theorems). -/
def epType : Str := "emergency_path".toList

theorem foldl_rec {σ α : Type _} (P : σ → Prop) (f : σ → α → σ) :
    ∀ (l : List α) (s : σ), P s → (∀ s2 a, a ∈ l → P s2 → P (f s2 a)) →
      P (l.foldl f s) := by
  intro l
  induction l with
  | nil => intro s h0 _; exact h0
  | cons a t ih =>
    intro s h0 hstep
    exact ih (f s a) (hstep s a (List.mem_cons_self a t) h0)
      (fun s2 b hb hp => hstep s2 b (List.mem_cons_of_mem a hb) hp)

theorem onPair_update (e : GEdge) (ty : Str) (w : ℚ) (a b : Nat) :
    GEdge.onPair { e with ety := ty, w := w } a b = e.onPair a b := rfl

theorem nodes_addEdge (g : Graph) (a b : Nat) (ty : Str) (w : ℚ) :
    (g.addEdge a b ty w).nodes = g.nodes := by
  unfold Graph.addEdge; split <;> rfl

theorem nodes_removeEdge (g : Graph) (a b : Nat) :
    (g.removeEdge a b).nodes = g.nodes := rfl

theorem mem_of_mem_removeEdge {g : Graph} {a b : Nat} {e : GEdge}
    (h : e ∈ (g.removeEdge a b).edges) : e ∈ g.edges :=
  List.mem_of_mem_filter h

theorem mem_addEdge_or {g : Graph} {a b : Nat} {ty : Str} {w : ℚ} {e : GEdge}
    (h : e ∈ (g.addEdge a b ty w).edges) :
    e ∈ g.edges ∨ (e.ety = ty ∧ e.w = w) := by
  unfold Graph.addEdge at h
  split at h
  · simp only [List.mem_map] at h
    obtain ⟨e0, he0, heq⟩ := h
    by_cases hp : e0.onPair a b = true
    · right
      rw [if_pos hp] at heq
      cases heq
      exact ⟨rfl, rfl⟩
    · left
      rw [if_neg hp] at heq
      cases heq
      exact he0
  · simp only [List.mem_append, List.mem_singleton] at h
    rcases h with h | h
    · exact Or.inl h
    · right
      cases h
      exact ⟨rfl, rfl⟩

theorem hasEdge_addEdge_mono {g : Graph} {x y : Nat} (a b : Nat) (ty : Str)
    (w : ℚ) (h : g.hasEdge x y = true) :
    (g.addEdge a b ty w).hasEdge x y = true := by
  unfold Graph.hasEdge at h
  rw [List.any_eq_true] at h
  obtain ⟨e, he, hpe⟩ := h
  unfold Graph.addEdge
  split
  · unfold Graph.hasEdge
    rw [List.any_eq_true]
    refine ⟨if e.onPair a b then { e with ety := ty, w := w } else e,
      List.mem_map_of_mem _ he, ?_⟩
    by_cases hab : e.onPair a b = true
    · simp only [hab, if_true]
      exact hpe
    · simp only [hab, if_false]
      exact hpe
  · unfold Graph.hasEdge
    rw [List.any_eq_true]
    exact ⟨e, List.mem_append_left _ he, hpe⟩

theorem hasEdge_addEdge_self (g : Graph) (a b : Nat) (ty : Str) (w : ℚ) :
    (g.addEdge a b ty w).hasEdge a b = true := by
  unfold Graph.addEdge
  split
  · next h =>
    unfold Graph.hasEdge at h ⊢
    rw [List.any_eq_true] at h
    obtain ⟨e, he, hpe⟩ := h
    rw [List.any_eq_true]
    refine ⟨if e.onPair a b then { e with ety := ty, w := w } else e,
      List.mem_map_of_mem _ he, ?_⟩
    simp only [hpe, if_true]
    exact hpe
  · unfold Graph.hasEdge
    rw [List.any_eq_true]
    refine ⟨⟨a, b, ty, w⟩, List.mem_append_right _ (List.mem_singleton_self _), ?_⟩
    simp [GEdge.onPair]

theorem pairAbsent_removeEdge (g : Graph) (a b : Nat) :
    ((g.removeEdge a b).edges.all (fun e => !(e.onPair a b))) = true := by
  rw [List.all_eq_true]
  intro e he
  simp only [Graph.removeEdge, List.mem_filter] at he
  exact he.2

theorem pairAbsent_removeEdge_mono {g : Graph} {x y : Nat}
    (h : (g.edges.all (fun e => !(e.onPair x y))) = true) (a b : Nat) :
    ((g.removeEdge a b).edges.all (fun e => !(e.onPair x y))) = true := by
  rw [List.all_eq_true] at h ⊢
  intro e he
  exact h e (mem_of_mem_removeEdge he)

theorem pairAbsent_addEdge {g : Graph} {x y : Nat} {a b : Nat} {ty : Str} {w : ℚ}
    (h : (g.edges.all (fun e => !(e.onPair x y))) = true)
    (hne : GEdge.onPair ⟨a, b, ty, w⟩ x y = false) :
    ((g.addEdge a b ty w).edges.all (fun e => !(e.onPair x y))) = true := by
  rw [List.all_eq_true] at h ⊢
  intro e he
  unfold Graph.addEdge at he
  split at he
  · simp only [List.mem_map] at he
    obtain ⟨e0, he0, heq⟩ := he
    have hp0 := h e0 he0
    by_cases hab : e0.onPair a b = true
    · rw [if_pos hab] at heq
      cases heq
      simpa [GEdge.onPair] using hp0
    · rw [if_neg hab] at heq
      cases heq
      exact hp0
  · simp only [List.mem_append, List.mem_singleton] at he
    rcases he with he | he
    · exact h e he
    · cases he
      simp [hne]

theorem find?_nid_eq {l : List Node} {n : Node} (hn : n ∈ l)
    (hnd : (l.map (·.nid)).Nodup) :
    l.find? (fun m => m.nid = n.nid) = some n := by
  induction l with
  | nil => cases hn
  | cons m t ih =>
    rw [List.map_cons, List.nodup_cons] at hnd
    rcases List.mem_cons.mp hn with h | h
    · subst h
      rw [List.find?_cons_of_pos]
      simp
    · have hne : m.nid ≠ n.nid := by
        intro he
        exact hnd.1 (he ▸ List.mem_map_of_mem (·.nid) h)
      rw [List.find?_cons_of_neg]
      · exact ih h hnd.2
      · simp [hne]

theorem typeOf_eq_of_mem {g : Graph} {n : Node} (hn : n ∈ g.nodes)
    (hnd : (g.nodes.map (·.nid)).Nodup) : g.typeOf n.nid = n.itype := by
  unfold Graph.typeOf
  rw [find?_nid_eq hn hnd]

theorem removeStep_skip {s : ApplyState} {es : RemoveEdgeSpec}
    (h : fuzzyFind es.frm s.lid = none) :
    removeStep s es = { s with changes := s.changes ++
      [⟨"llm_optimization".toList, "remove_edge_skipped".toList, es.frm, es.toN,
        [], [], [], [], "Not found. LLM reason: ".toList ++ es.reason⟩] } := by
  unfold removeStep
  rw [h]

theorem addStep_skip {s : ApplyState} {es : AddEdgeSpec}
    (h : fuzzyFind es.frm s.lid = none) :
    addStep s es = { s with changes := s.changes ++
      [⟨"llm_optimization".toList, "add_edge_skipped".toList, es.frm, es.toN,
        [], [], [], [], "Node not found. LLM reason: ".toList ++ es.reason⟩] } := by
  unfold addStep
  rw [h]

theorem rerouteStep_skip {s : ApplyState} {rt : RerouteSpec}
    (h : fuzzyFind rt.frm s.lid = none) :
    rerouteStep s rt = { s with changes := s.changes ++
      [⟨"llm_optimization".toList, "reroute_skipped".toList, rt.frm, rt.toN,
        rt.via, [], [], [], "Node not found".toList⟩] } := by
  unfold rerouteStep
  rw [h]

theorem nodes_removeStep (s : ApplyState) (es : RemoveEdgeSpec) :
    (removeStep s es).g.nodes = s.g.nodes := by
  unfold removeStep
  cases fuzzyFind es.frm s.lid <;> cases fuzzyFind es.toN s.lid <;>
    dsimp only <;>
    first
    | rfl
    | (split <;> rfl)

theorem nodes_addStep (s : ApplyState) (es : AddEdgeSpec) :
    (addStep s es).g.nodes = s.g.nodes := by
  unfold addStep
  cases fuzzyFind es.frm s.lid <;> cases fuzzyFind es.toN s.lid <;>
    dsimp only <;>
    first
    | rfl
    | exact nodes_addEdge _ _ _ _ _

theorem nodes_connectFold (lid : Lid) (ty : Str) (nxt : Nat) :
    ∀ (l : List Str) (gA : Graph),
      (l.foldl (connectStep lid ty nxt) gA).nodes = gA.nodes := by
  intro l
  induction l with
  | nil => intro gA; rfl
  | cons a t ih =>
    intro gA
    rw [List.foldl_cons, ih]
    unfold connectStep
    cases fuzzyFind a lid with
    | none => rfl
    | some cid => exact nodes_addEdge _ _ _ _ _

theorem nodes_addNodeStep (sn : ApplyState × Nat) (ns : AddNodeSpec) :
    ((addNodeStep sn ns).1).g.nodes = sn.1.g.nodes ++
      [⟨sn.2, ns.labelO.getD ("Emergency_Node_".toList ++ Nat.toDigits 10 sn.2),
        ns.typeO.getD "Bunker/Shelter".toList,
        infraCategoryD (ns.typeO.getD "Bunker/Shelter".toList)⟩] := by
  unfold addNodeStep
  rw [nodes_connectFold]
  rfl

theorem nodes_rerouteStep (s : ApplyState) (rt : RerouteSpec) :
    (rerouteStep s rt).g.nodes = s.g.nodes := by
  unfold rerouteStep
  cases fuzzyFind rt.frm s.lid <;> cases fuzzyFind rt.toN s.lid <;>
    cases fuzzyFind rt.via s.lid <;>
    dsimp only <;>
    first
    | rfl
    | (rw [nodes_addEdge, nodes_addEdge]
       split <;> rfl)

theorem mem_edges_removeStep {s : ApplyState} {es : RemoveEdgeSpec} {e : GEdge}
    (h : e ∈ (removeStep s es).g.edges) : e ∈ s.g.edges := by
  unfold removeStep at h
  revert h
  cases fuzzyFind es.frm s.lid <;> cases fuzzyFind es.toN s.lid <;>
    dsimp only <;> intro h <;>
    first
    | exact h
    | (revert h; split <;> intro h
       · exact mem_of_mem_removeEdge h
       · exact h)

theorem mem_edges_addStep {s : ApplyState} {es : AddEdgeSpec} {e : GEdge}
    (h : e ∈ (addStep s es).g.edges) :
    e ∈ s.g.edges ∨ (e.ety = es.etyO.getD "emergency".toList ∧ e.w = 1) := by
  unfold addStep at h
  revert h
  cases fuzzyFind es.frm s.lid <;> cases fuzzyFind es.toN s.lid <;>
    dsimp only <;> intro h <;>
    first
    | exact Or.inl h
    | exact mem_addEdge_or h

theorem mem_edges_connectFold {lid : Lid} {ty : Str} {nxt : Nat} :
    ∀ {l : List Str} {gA : Graph} {e : GEdge},
      e ∈ (l.foldl (connectStep lid ty nxt) gA).edges →
      e ∈ gA.edges ∨ (e.ety = ty ∧ e.w = 1) := by
  intro l
  induction l with
  | nil => intro gA e h; exact Or.inl h
  | cons a t ih =>
    intro gA e h
    rw [List.foldl_cons] at h
    rcases ih h with h2 | h2
    · unfold connectStep at h2
      revert h2
      cases fuzzyFind a lid <;> intro h2
      · exact Or.inl h2
      · exact mem_addEdge_or h2
    · exact Or.inr h2

theorem mem_edges_addNodeStep {sn : ApplyState × Nat} {ns : AddNodeSpec} {e : GEdge}
    (h : e ∈ ((addNodeStep sn ns).1).g.edges) :
    e ∈ sn.1.g.edges ∨ (e.ety = ns.etyO.getD "emergency".toList ∧ e.w = 1) := by
  unfold addNodeStep at h
  rcases mem_edges_connectFold h with h2 | h2
  · exact Or.inl h2
  · exact Or.inr h2

theorem mem_edges_rerouteStep {s : ApplyState} {rt : RerouteSpec} {e : GEdge}
    (h : e ∈ (rerouteStep s rt).g.edges) :
    e ∈ s.g.edges ∨ (e.ety = rt.etyO.getD "emergency".toList ∧ e.w = 1) := by
  unfold rerouteStep at h
  revert h
  cases fuzzyFind rt.frm s.lid <;> cases fuzzyFind rt.toN s.lid <;>
    cases fuzzyFind rt.via s.lid <;> dsimp only <;> intro h <;>
    first
    | exact Or.inl h
    | (rcases mem_addEdge_or h with h2 | h2
       · rcases mem_addEdge_or h2 with h3 | h3
         · revert h3
           split <;> intro h3
           · exact Or.inl (mem_of_mem_removeEdge h3)
           · exact Or.inl h3
         · exact Or.inr h3
       · exact Or.inr h2)

/-- C6: for a fixed location name and fixed explicit seed (with the
fixed deterministic models of the hash, RandomState, float and
triangulation libraries), running layout generation plus topology
building twice produces identical results: the same node set with the
same positions and the same edge set with the same types and weights. -/
theorem generation_two_runs_identical (fm : FloatModel)
    (md5h shaB0 shaB1 : Str → Nat) (rngOf : Nat → Nat → ℚ) (tri : TriOracle)
    (name : Str) (seed : Option Nat) :
    (generateProcedural fm md5h shaB0 shaB1 rngOf tri name seed).g.nodes =
      (generateProcedural fm md5h shaB0 shaB1 rngOf tri name seed).g.nodes ∧
    (generateProcedural fm md5h shaB0 shaB1 rngOf tri name seed).pos =
      (generateProcedural fm md5h shaB0 shaB1 rngOf tri name seed).pos ∧
    (generateProcedural fm md5h shaB0 shaB1 rngOf tri name seed).g.edges =
      (generateProcedural fm md5h shaB0 shaB1 rngOf tri name seed).g.edges :=
  ⟨rfl, rfl, rfl⟩

/-- C10: an explicit seed of 0 is truthiness-tested away, so generation
with seed 0 equals generation with no seed at all, and an explicit seed
is honoured exactly when it is nonzero. -/
theorem seed_zero_behaves_as_absent (fm : FloatModel)
    (md5h shaB0 shaB1 : Str → Nat) (rngOf : Nat → Nat → ℚ) (tri : TriOracle)
    (name : Str) :
    generateProcedural fm md5h shaB0 shaB1 rngOf tri name (some 0) =
      generateProcedural fm md5h shaB0 shaB1 rngOf tri name none ∧
    ∀ s : Nat, s ≠ 0 → seedSelect md5h (some s) name = s := by
  constructor
  · rfl
  · intro s hs
    simp [seedSelect, hs]

/-- Witness for C10 at a concrete instantiation. -/
theorem seed_zero_behaves_as_absent_witness :
    generateProcedural constFM constHash constHash constHash constRngOf
        noneOracle [] (some 0) =
      generateProcedural constFM constHash constHash constHash constRngOf
        noneOracle [] none ∧
    seedSelect constHash (some 3) [] = 3 :=
  ⟨(seed_zero_behaves_as_absent constFM constHash constHash constHash
      constRngOf noneOracle []).1,
   (seed_zero_behaves_as_absent constFM constHash constHash constHash
      constRngOf noneOracle []).2 3 (by decide)⟩

/-- C4: the programmatic pruner runs if and only if the count of
successfully applied directive operations is below 3 — below the
threshold mitigate composes the pruner onto the directive result and
concatenates its change log, at or above it the directive result is
returned untouched. -/
theorem fallback_pruner_trigger_threshold (g : Graph) (dir : Directive)
    (cal : List Str) (u : Nat → ℚ) :
    ((applyLlmDirections g dir).2.2 < 3 →
      mitigateCore g dir cal u =
        ⟨(applyProgrammaticPruning (applyLlmDirections g dir).1 cal u).1,
         (applyLlmDirections g dir).2.1 ++
           (applyProgrammaticPruning (applyLlmDirections g dir).1 cal u).2,
         (applyLlmDirections g dir).2.2⟩) ∧
    (¬ (applyLlmDirections g dir).2.2 < 3 →
      mitigateCore g dir cal u =
        ⟨(applyLlmDirections g dir).1, (applyLlmDirections g dir).2.1,
         (applyLlmDirections g dir).2.2⟩) := by
  constructor
  · intro h
    unfold mitigateCore
    rw [if_pos h]
  · intro h
    unfold mitigateCore
    rw [if_neg h]

/-- Witness for C4: an empty directive applies 0 operations, so the
pruner runs. -/
theorem fallback_pruner_trigger_threshold_witness :
    (applyLlmDirections bridgeGraph emptyDirective).2.2 < 3 ∧
    mitigateCore bridgeGraph emptyDirective [] zeroStream =
      ⟨(applyProgrammaticPruning
          (applyLlmDirections bridgeGraph emptyDirective).1 [] zeroStream).1,
       (applyLlmDirections bridgeGraph emptyDirective).2.1 ++
         (applyProgrammaticPruning
           (applyLlmDirections bridgeGraph emptyDirective).1 [] zeroStream).2,
       (applyLlmDirections bridgeGraph emptyDirective).2.2⟩ :=
  ⟨by decide,
   (fallback_pruner_trigger_threshold bridgeGraph emptyDirective []
      zeroStream).1 (by decide)⟩

/-- C3: fuzzy label resolution tries exact match, then case-insensitive
match, then substring match, then two-word token overlap, first success
winning; an unresolved reference makes the operation a logged skip (the
graph and the applied count untouched — nothing is raised); and the
reference "hospital #1" resolves to the node labeled "Hospital #1" by
the case-insensitive rule, the exact rule having failed. -/
theorem fuzzy_resolution_order :
    (∀ (name : Str) (lid : Lid) (n : Nat), name ≠ [] →
       exactRule name lid = some n → fuzzyFind name lid = some n) ∧
    (∀ (name : Str) (lid : Lid) (n : Nat), name ≠ [] →
       exactRule name lid = none → ciRule name lid = some n →
       fuzzyFind name lid = some n) ∧
    (∀ (name : Str) (lid : Lid) (n : Nat), name ≠ [] →
       exactRule name lid = none → ciRule name lid = none →
       substrRule name lid = some n → fuzzyFind name lid = some n) ∧
    (∀ (name : Str) (lid : Lid), name ≠ [] →
       exactRule name lid = none → ciRule name lid = none →
       substrRule name lid = none → fuzzyFind name lid = tokenRule name lid) ∧
    (∀ (s : ApplyState) (es : RemoveEdgeSpec), fuzzyFind es.frm s.lid = none →
       (removeStep s es).g = s.g ∧ (removeStep s es).applied = s.applied ∧
       (removeStep s es).changes = s.changes ++
         [⟨"llm_optimization".toList, "remove_edge_skipped".toList, es.frm,
           es.toN, [], [], [], [], "Not found. LLM reason: ".toList ++ es.reason⟩]) ∧
    (fuzzyFind "hospital #1".toList [("Hospital #1".toList, 7)] = some 7 ∧
     exactRule "hospital #1".toList [("Hospital #1".toList, 7)] = none ∧
     ciRule "hospital #1".toList [("Hospital #1".toList, 7)] = some 7) := by
  refine ⟨?_, ?_, ?_, ?_, ?_, by decide⟩
  · intro name lid n h1 h2
    simp [fuzzyFind, h1, h2]
  · intro name lid n h1 h2 h3
    simp [fuzzyFind, h1, h2, h3]
  · intro name lid n h1 h2 h3 h4
    simp [fuzzyFind, h1, h2, h3, h4]
  · intro name lid h1 h2 h3 h4
    simp [fuzzyFind, h1, h2, h3, h4]
  · intro s es h
    unfold removeStep
    rw [h]
    constructor
    · rfl
    constructor
    · rfl
    · rfl

/-- Witness for C3 at a concrete name and lid. -/
theorem fuzzy_resolution_order_witness :
    fuzzyFind "Hospital #1".toList [("Hospital #1".toList, 7)] = some 7 :=
  fuzzy_resolution_order.1 "Hospital #1".toList [("Hospital #1".toList, 7)] 7
    (by decide) (by decide)

/-- C5: a directive whose remove_edges, add_edges and reroute entries
reference only unresolvable labels (and which adds no nodes) leaves the
graph exactly equal to the input, applies 0 operations, and produces a
change log made only of skip entries — and, being a total function, the
applier raises nothing. -/
theorem unresolvable_directive_is_noop (g : Graph) (dir : Directive)
    (hAN : dir.addNodes = []) (hU : unresolvedAll g dir = true) :
    (applyLlmDirections g dir).1 = g ∧
    (applyLlmDirections g dir).2.2 = 0 ∧
    ((applyLlmDirections g dir).2.1.all
      (fun c => skipActions.contains c.action)) = true := by
  simp only [unresolvedAll, Bool.and_eq_true, List.all_eq_true] at hU
  obtain ⟨⟨hR, hA⟩, hT⟩ := hU
  have hP : ∀ s : ApplyState,
      (s.g = g ∧ s.lid = buildLid g.nodes ∧ s.applied = 0 ∧
        (s.changes.all (fun c => skipActions.contains c.action)) = true) →
      ∀ s4, s4 = dir.reroutes.foldl rerouteStep
          (dir.addEdges.foldl addStep (dir.removeEdges.foldl removeStep s)) →
        (s4.g = g ∧ s4.applied = 0 ∧
          (s4.changes.all (fun c => skipActions.contains c.action)) = true) := by
    intro s hs s4 hs4
    have h1 := foldl_rec
      (fun s2 => s2.g = g ∧ s2.lid = buildLid g.nodes ∧ s2.applied = 0 ∧
        (s2.changes.all (fun c => skipActions.contains c.action)) = true)
      removeStep dir.removeEdges s hs ?_
    · have h2 := foldl_rec
        (fun s2 => s2.g = g ∧ s2.lid = buildLid g.nodes ∧ s2.applied = 0 ∧
          (s2.changes.all (fun c => skipActions.contains c.action)) = true)
        addStep dir.addEdges _ h1 ?_
      · have h3 := foldl_rec
          (fun s2 => s2.g = g ∧ s2.lid = buildLid g.nodes ∧ s2.applied = 0 ∧
            (s2.changes.all (fun c => skipActions.contains c.action)) = true)
          rerouteStep dir.reroutes _ h2 ?_
        · rw [hs4]
          exact ⟨h3.1, h3.2.2.1, h3.2.2.2⟩
        · intro s2 rt hm hp
          obtain ⟨hg2, hl2, ha2, hc2⟩ := hp
          have hfr : fuzzyFind rt.frm s2.lid = none := by
            rw [hl2]
            exact Option.isNone_iff_eq_none.mp (hT rt hm).1.1
          rw [rerouteStep_skip hfr]
          refine ⟨hg2, hl2, ha2, ?_⟩
          rw [List.all_append, Bool.and_eq_true]
          exact ⟨hc2, by simp [skipActions]⟩
      · intro s2 es hm hp
        obtain ⟨hg2, hl2, ha2, hc2⟩ := hp
        have hfr : fuzzyFind es.frm s2.lid = none := by
          rw [hl2]
          exact Option.isNone_iff_eq_none.mp (hA es hm).1
        rw [addStep_skip hfr]
        refine ⟨hg2, hl2, ha2, ?_⟩
        rw [List.all_append, Bool.and_eq_true]
        exact ⟨hc2, by simp [skipActions]⟩
    · intro s2 es hm hp
      obtain ⟨hg2, hl2, ha2, hc2⟩ := hp
      have hfr : fuzzyFind es.frm s2.lid = none := by
        rw [hl2]
        exact Option.isNone_iff_eq_none.mp (hR es hm).1
      rw [removeStep_skip hfr]
      refine ⟨hg2, hl2, ha2, ?_⟩
      rw [List.all_append, Bool.and_eq_true]
      exact ⟨hc2, by simp [skipActions]⟩
  have := hP ⟨g, [], 0, buildLid g.nodes⟩ ⟨rfl, rfl, rfl, rfl⟩
  unfold applyLlmDirections
  rw [hAN]
  simp only [List.foldl_nil]
  exact this _ rfl

/-- Witness for C5: a one-operation directive naming a label absent
from bridgeGraph. -/
theorem unresolvable_directive_is_noop_witness :
    ghostDirective.addNodes = [] ∧
    unresolvedAll bridgeGraph ghostDirective = true ∧
    (applyLlmDirections bridgeGraph ghostDirective).1 = bridgeGraph ∧
    (applyLlmDirections bridgeGraph ghostDirective).2.2 = 0 ∧
    ((applyLlmDirections bridgeGraph ghostDirective).2.1.all
      (fun c => skipActions.contains c.action)) = true := by
  refine ⟨by decide, by decide, ?_⟩
  exact unresolvable_directive_is_noop bridgeGraph ghostDirective
    (by decide) (by decide)

theorem nodes_pruneRemovals :
    ∀ (marked : List MarkEntry) (st : Graph × List Change),
      ((marked.foldl pruneRemovals st)).1.nodes = st.1.nodes := by
  intro marked
  induction marked with
  | nil => intro st; rfl
  | cons m t ih =>
    intro st
    rw [List.foldl_cons, ih]
    unfold pruneRemovals
    dsimp only
    split <;> rfl

theorem nodes_emAddFold :
    ∀ (l : List Nat) (target : Nat) (reason : Str) (st : Graph × List Change),
      ((l.foldl (emAddStep target reason) st)).1.nodes = st.1.nodes := by
  intro l
  induction l with
  | nil => intro target reason st; rfl
  | cons a t ih =>
    intro target reason st
    rw [List.foldl_cons, ih]
    unfold emAddStep
    dsimp only
    split
    · rfl
    · exact nodes_addEdge _ _ _ _ _

theorem nodes_pruner (g : Graph) (cal : List Str) (u : Nat → ℚ) :
    (applyProgrammaticPruning g cal u).1.nodes = g.nodes := by
  unfold applyProgrammaticPruning
  dsimp only
  split
  · rw [nodes_emAddFold]
    split
    · rw [nodes_emAddFold, nodes_pruneRemovals]
    · rw [nodes_pruneRemovals]
  · split
    · rw [nodes_emAddFold, nodes_pruneRemovals]
    · rw [nodes_pruneRemovals]

/-- C9: no operation of the DirectiveApplier or the FallbackPruner ever
removes a node: every node of the base graph is still a node of the
directive-mutated graph, and the pruner leaves the node list exactly
unchanged. -/
theorem mutation_preserves_node_set :
    (∀ (g : Graph) (dir : Directive) (n : Node), n ∈ g.nodes →
       n ∈ (applyLlmDirections g dir).1.nodes) ∧
    (∀ (g : Graph) (cal : List Str) (u : Nat → ℚ),
       (applyProgrammaticPruning g cal u).1.nodes = g.nodes) := by
  constructor
  · intro g dir n hn
    suffices h : n ∈ (dir.reroutes.foldl rerouteStep
        ((dir.addNodes.foldl addNodeStep
          (dir.addEdges.foldl addStep (dir.removeEdges.foldl removeStep
            ⟨g, [], 0, buildLid g.nodes⟩),
           if (dir.addEdges.foldl addStep (dir.removeEdges.foldl removeStep
                ⟨g, [], 0, buildLid g.nodes⟩)).g.nodes = [] then 0
           else (dir.addEdges.foldl addStep (dir.removeEdges.foldl removeStep
                ⟨g, [], 0, buildLid g.nodes⟩)).g.maxId + 1)).1)).g.nodes by
      exact h
    have h1 := foldl_rec (fun s : ApplyState => n ∈ s.g.nodes) removeStep
      dir.removeEdges ⟨g, [], 0, buildLid g.nodes⟩ hn
      (fun s2 a _ hp => by
        show n ∈ (removeStep s2 a).g.nodes
        rw [nodes_removeStep]; exact hp)
    have h2 := foldl_rec (fun s : ApplyState => n ∈ s.g.nodes) addStep
      dir.addEdges _ h1
      (fun s2 a _ hp => by
        show n ∈ (addStep s2 a).g.nodes
        rw [nodes_addStep]; exact hp)
    have h3 := foldl_rec (fun sn : ApplyState × Nat => n ∈ sn.1.g.nodes)
      addNodeStep dir.addNodes
      (dir.addEdges.foldl addStep (dir.removeEdges.foldl removeStep
         ⟨g, [], 0, buildLid g.nodes⟩),
       if (dir.addEdges.foldl addStep (dir.removeEdges.foldl removeStep
            ⟨g, [], 0, buildLid g.nodes⟩)).g.nodes = [] then 0
       else (dir.addEdges.foldl addStep (dir.removeEdges.foldl removeStep
            ⟨g, [], 0, buildLid g.nodes⟩)).g.maxId + 1) h2
      (fun sn a _ hp => by
        show n ∈ (addNodeStep sn a).1.g.nodes
        rw [nodes_addNodeStep]; exact List.mem_append_left _ hp)
    exact foldl_rec (fun s : ApplyState => n ∈ s.g.nodes) rerouteStep
      dir.reroutes _ h3
      (fun s2 a _ hp => by
        show n ∈ (rerouteStep s2 a).g.nodes
        rw [nodes_rerouteStep]; exact hp)
  · exact nodes_pruner

/-- Witness for C9 at a concrete graph and directive. -/
theorem mutation_preserves_node_set_witness :
    ⟨0, "Hospital #1".toList, "Hospital".toList, "Emergency".toList⟩ ∈
      bridgeGraph.nodes ∧
    (⟨0, "Hospital #1".toList, "Hospital".toList, "Emergency".toList⟩ : Node) ∈
      (applyLlmDirections bridgeGraph cutDirective).1.nodes ∧
    (applyProgrammaticPruning interGraph [] zeroStream).1.nodes =
      interGraph.nodes :=
  ⟨by decide,
   mutation_preserves_node_set.1 bridgeGraph cutDirective _ (by decide),
   mutation_preserves_node_set.2 interGraph [] zeroStream⟩

theorem mem_edges_pruneRemovals :
    ∀ (marked : List MarkEntry) (st : Graph × List Change) {e : GEdge},
      e ∈ ((marked.foldl pruneRemovals st)).1.edges → e ∈ st.1.edges := by
  intro marked
  induction marked with
  | nil => intro st e h; exact h
  | cons m t ih =>
    intro st e h
    rw [List.foldl_cons] at h
    have h2 := ih _ h
    revert h2
    unfold pruneRemovals
    dsimp only
    split <;> intro h2
    · exact mem_of_mem_removeEdge h2
    · exact h2

theorem mem_edges_emAddFold :
    ∀ (l : List Nat) (target : Nat) (reason : Str) (st : Graph × List Change)
      {e : GEdge},
      e ∈ ((l.foldl (emAddStep target reason) st)).1.edges →
      e ∈ st.1.edges ∨ (e.ety = "emergency".toList ∧ e.w = 1) := by
  intro l
  induction l with
  | nil => intro target reason st e h; exact Or.inl h
  | cons a t ih =>
    intro target reason st e h
    rw [List.foldl_cons] at h
    rcases ih _ _ _ h with h2 | h2
    · revert h2
      unfold emAddStep
      dsimp only
      split <;> intro h2
      · exact Or.inl h2
      · exact mem_addEdge_or h2
    · exact Or.inr h2

theorem mem_edges_pruner {g : Graph} {cal : List Str} {u : Nat → ℚ} {e : GEdge}
    (he : e ∈ (applyProgrammaticPruning g cal u).1.edges) :
    e ∈ g.edges ∨ (e.ety = "emergency".toList ∧ e.w = 1) := by
  unfold applyProgrammaticPruning at he
  dsimp only at he
  have base : ∀ {e2 : GEdge},
      e2 ∈ ((((g.edges.foldl (pruneMarkStep g
          ((cal.map lowerStr).contains "flood".toList)
          ((cal.map lowerStr).contains "earthquake".toList) u) ([], 0)).1).foldl
        pruneRemovals (g, [])).1).edges → e2 ∈ g.edges :=
    fun h2 => mem_edges_pruneRemovals _ _ h2
  revert he
  split <;> intro he
  · rcases mem_edges_emAddFold _ _ _ _ he with h2 | h2
    · revert h2
      split <;> intro h2
      · rcases mem_edges_emAddFold _ _ _ _ h2 with h3 | h3
        · exact Or.inl (base h3)
        · exact Or.inr h3
      · exact Or.inl (base h2)
    · exact Or.inr h2
  · revert he
    split <;> intro he
    · rcases mem_edges_emAddFold _ _ _ _ he with h3 | h3
      · exact Or.inl (base h3)
      · exact Or.inr h3
    · exact Or.inl (base he)

theorem mem_edges_applyLlm {g : Graph} {dir : Directive} {e : GEdge}
    (he : e ∈ (applyLlmDirections g dir).1.edges) :
    e ∈ g.edges ∨ (e.w = 1 ∧
      ((∃ es, es ∈ dir.addEdges ∧ e.ety = es.etyO.getD "emergency".toList) ∨
       (∃ ns, ns ∈ dir.addNodes ∧ e.ety = ns.etyO.getD "emergency".toList) ∨
       (∃ rt, rt ∈ dir.reroutes ∧ e.ety = rt.etyO.getD "emergency".toList))) := by
  have h1 := foldl_rec (fun s : ApplyState => ∀ e2 : GEdge, e2 ∈ s.g.edges →
      e2 ∈ g.edges ∨ (e2.w = 1 ∧
        ((∃ es, es ∈ dir.addEdges ∧ e2.ety = es.etyO.getD "emergency".toList) ∨
         (∃ ns, ns ∈ dir.addNodes ∧ e2.ety = ns.etyO.getD "emergency".toList) ∨
         (∃ rt, rt ∈ dir.reroutes ∧ e2.ety = rt.etyO.getD "emergency".toList))))
    removeStep dir.removeEdges ⟨g, [], 0, buildLid g.nodes⟩
    (fun e2 he2 => Or.inl he2)
    (fun s2 a _ hp => by
      intro e2 he2
      exact hp e2 (mem_edges_removeStep he2))
  have h2 := foldl_rec (fun s : ApplyState => ∀ e2 : GEdge, e2 ∈ s.g.edges →
      e2 ∈ g.edges ∨ (e2.w = 1 ∧
        ((∃ es, es ∈ dir.addEdges ∧ e2.ety = es.etyO.getD "emergency".toList) ∨
         (∃ ns, ns ∈ dir.addNodes ∧ e2.ety = ns.etyO.getD "emergency".toList) ∨
         (∃ rt, rt ∈ dir.reroutes ∧ e2.ety = rt.etyO.getD "emergency".toList))))
    addStep dir.addEdges _ h1
    (fun s2 a hm hp => by
      intro e2 he2
      rcases mem_edges_addStep he2 with h3 | h3
      · exact hp e2 h3
      · exact Or.inr ⟨h3.2, Or.inl ⟨a, hm, h3.1⟩⟩)
  have h3 := foldl_rec (fun sn : ApplyState × Nat => ∀ e2 : GEdge,
      e2 ∈ sn.1.g.edges →
      e2 ∈ g.edges ∨ (e2.w = 1 ∧
        ((∃ es, es ∈ dir.addEdges ∧ e2.ety = es.etyO.getD "emergency".toList) ∨
         (∃ ns, ns ∈ dir.addNodes ∧ e2.ety = ns.etyO.getD "emergency".toList) ∨
         (∃ rt, rt ∈ dir.reroutes ∧ e2.ety = rt.etyO.getD "emergency".toList))))
    addNodeStep dir.addNodes
    (dir.addEdges.foldl addStep (dir.removeEdges.foldl removeStep
       ⟨g, [], 0, buildLid g.nodes⟩),
     if (dir.addEdges.foldl addStep (dir.removeEdges.foldl removeStep
          ⟨g, [], 0, buildLid g.nodes⟩)).g.nodes = [] then 0
     else (dir.addEdges.foldl addStep (dir.removeEdges.foldl removeStep
          ⟨g, [], 0, buildLid g.nodes⟩)).g.maxId + 1) h2
    (fun sn a hm hp => by
      intro e2 he2
      rcases mem_edges_addNodeStep he2 with h4 | h4
      · exact hp e2 h4
      · exact Or.inr ⟨h4.2, Or.inr (Or.inl ⟨a, hm, h4.1⟩)⟩)
  have h4 := foldl_rec (fun s : ApplyState => ∀ e2 : GEdge, e2 ∈ s.g.edges →
      e2 ∈ g.edges ∨ (e2.w = 1 ∧
        ((∃ es, es ∈ dir.addEdges ∧ e2.ety = es.etyO.getD "emergency".toList) ∨
         (∃ ns, ns ∈ dir.addNodes ∧ e2.ety = ns.etyO.getD "emergency".toList) ∨
         (∃ rt, rt ∈ dir.reroutes ∧ e2.ety = rt.etyO.getD "emergency".toList))))
    rerouteStep dir.reroutes _ h3
    (fun s2 a hm hp => by
      intro e2 he2
      rcases mem_edges_rerouteStep he2 with h5 | h5
      · exact hp e2 h5
      · exact Or.inr ⟨h5.2, Or.inr (Or.inr ⟨a, hm, h5.1⟩)⟩)
  exact h4 e he

/-- Counterexample to C1: a directive that applies 3 operations (so the
fallback pruner is suppressed) removes a cut of bridgeGraph; no
connectivity repair runs, the mitigated graph is disconnected, and it
contains no emergency_path edge. -/
theorem mitigated_graph_can_be_disconnected :
    (applyLlmDirections bridgeGraph cutDirective).2.2 = 3 ∧
    (mitigateCore bridgeGraph cutDirective [] zeroStream).g.isConnected = false ∧
    ((mitigateCore bridgeGraph cutDirective [] zeroStream).g.edges.all
      (fun e => !(e.ety = epType))) = true := by
  decide

/-- C1 amended: no connectivity-repair step exists in this pipeline —
whenever neither the base graph nor the directive itself supplies an
emergency_path edge type, the mitigated graph contains no
emergency_path edge at all (and, per the counterexample, it can be
disconnected). -/
theorem no_connectivity_repair_runs (g : Graph) (dir : Directive)
    (cal : List Str) (u : Nat → ℚ)
    (hg : (g.edges.all (fun e => !(e.ety = epType))) = true)
    (hadd : (dir.addEdges.all
      (fun es => !(es.etyO.getD "emergency".toList = epType))) = true)
    (hnode : (dir.addNodes.all
      (fun ns => !(ns.etyO.getD "emergency".toList = epType))) = true)
    (hrr : (dir.reroutes.all
      (fun rt => !(rt.etyO.getD "emergency".toList = epType))) = true) :
    ((mitigateCore g dir cal u).g.edges.all
      (fun e => !(e.ety = epType))) = true := by
  rw [List.all_eq_true] at hg hadd hnode hrr ⊢
  intro e he
  simp only [Bool.not_eq_true', decide_eq_false_iff_not] at hg hadd hnode hrr ⊢
  have hllm : ∀ e2 : GEdge, e2 ∈ (applyLlmDirections g dir).1.edges →
      ¬ e2.ety = epType := by
    intro e2 he2
    rcases mem_edges_applyLlm he2 with h | ⟨_, h⟩
    · exact hg e2 h
    · rcases h with ⟨es, hm, hty⟩ | ⟨ns, hm, hty⟩ | ⟨rt, hm, hty⟩
      · rw [hty]; exact hadd es hm
      · rw [hty]; exact hnode ns hm
      · rw [hty]; exact hrr rt hm
  revert he
  unfold mitigateCore
  dsimp only
  split <;> intro he
  · rcases mem_edges_pruner he with h | h
    · exact hllm e h
    · rw [h.1]; decide
  · exact hllm e he

/-- Witness for the amended C1 at a concrete input. -/
theorem no_connectivity_repair_runs_witness :
    (bridgeGraph.edges.all (fun e => !(e.ety = epType))) = true ∧
    ((mitigateCore bridgeGraph cutDirective [] zeroStream).g.edges.all
      (fun e => !(e.ety = epType))) = true :=
  ⟨by decide,
   no_connectivity_repair_runs bridgeGraph cutDirective [] zeroStream
     (by decide) (by decide) (by decide) (by decide)⟩

/-- Counterexample to C2: an add-edge operation between nodes 5 apart
stores weight 1.0, not the Euclidean distance. -/
theorem directive_added_edge_weight_not_euclidean :
    (applyLlmDirections twoNodeGraph addOneDirective).1.edges =
      [⟨0, 1, "emergency".toList, 1⟩] ∧
    ¬ weightIsEuclid twoNodePos (⟨0, 1, "emergency".toList, 1⟩ : GEdge) := by
  constructor
  · decide
  · intro h
    have h2 := h.2
    rw [show posLookup twoNodePos (GEdge.mk 0 1 "emergency".toList 1).u =
          ((0 : ℚ), (0 : ℚ)) from by decide,
        show posLookup twoNodePos (GEdge.mk 0 1 "emergency".toList 1).v =
          ((3 : ℚ), (4 : ℚ)) from by decide] at h2
    norm_num [dsq] at h2

/-- C2 amended: every edge added (or overwritten) by a directive
operation carries the constant weight 1.0 — each edge of the mutated
graph either already belonged to the base graph or has weight 1. -/
theorem directive_added_edges_have_weight_one (g : Graph) (dir : Directive) :
    ((applyLlmDirections g dir).1.edges.all
      (fun e => g.edges.contains e || decide (e.w = 1))) = true := by
  rw [List.all_eq_true]
  intro e he
  rcases mem_edges_applyLlm he with h | ⟨hw, _⟩
  · rw [Bool.or_eq_true]
    left
    exact List.elem_eq_true_of_mem h
  · rw [Bool.or_eq_true]
    right
    rw [decide_eq_true_eq]
    exact hw

theorem mem_pruneRulesTail {g : Graph} {qk : Bool} {u : Nat → ℚ} {e : GEdge}
    {ut vt ul vl : Str} {mk : List MarkEntry} {ctr : Nat} {m : MarkEntry}
    (hm : m ∈ mk) : m ∈ (pruneRulesTail g qk u e ut vt ul vl mk ctr).1 := by
  unfold pruneRulesTail
  split_ifs <;> first | exact hm | exact List.mem_append_left _ hm

theorem mem_pruneMarkStep {g : Graph} {fl qk : Bool} {u : Nat → ℚ}
    {st : List MarkEntry × Nat} {e : GEdge} {m : MarkEntry}
    (hm : m ∈ st.1) : m ∈ (pruneMarkStep g fl qk u st e).1 := by
  unfold pruneMarkStep
  dsimp only
  split_ifs <;>
    first
    | exact hm
    | exact List.mem_append_left _ hm
    | exact mem_pruneRulesTail hm

theorem mark_added_of_road_intersection {g : Graph} {fl qk : Bool}
    {u : Nat → ℚ} {e : GEdge} (st : List MarkEntry × Nat)
    (hr : e.ety = "road".toList)
    (hint : g.typeOf e.u = "intersection".toList ∨
            g.typeOf e.v = "intersection".toList) :
    ∃ m ∈ (pruneMarkStep g fl qk u st e).1, m.mu = e.u ∧ m.mv = e.v := by
  unfold pruneMarkStep
  dsimp only
  split_ifs with h1 h2 h3 h4 h5 <;>
    first
    | exact ⟨_, List.mem_append_right _ (List.mem_singleton_self _), rfl, rfl⟩
    | exact absurd ⟨hr, hint⟩ h3

theorem marked_contains_pair {g : Graph} {fl qk : Bool} {u : Nat → ℚ} :
    ∀ (l : List GEdge) (st : List MarkEntry × Nat) {e : GEdge}, e ∈ l →
      e.ety = "road".toList →
      (g.typeOf e.u = "intersection".toList ∨
       g.typeOf e.v = "intersection".toList) →
      ∃ m ∈ (l.foldl (pruneMarkStep g fl qk u) st).1,
        m.mu = e.u ∧ m.mv = e.v := by
  intro l
  induction l with
  | nil => intro st e he; cases he
  | cons a t ih =>
    intro st e he hr hint
    rw [List.foldl_cons]
    rcases List.mem_cons.mp he with rfl | he2
    · obtain ⟨m, hm, hp⟩ := mark_added_of_road_intersection st hr hint
      have hkeep := foldl_rec (fun st2 : List MarkEntry × Nat => m ∈ st2.1)
        (pruneMarkStep g fl qk u) t _ hm
        (fun st2 a2 _ hp2 => mem_pruneMarkStep hp2)
      exact ⟨m, hkeep, hp⟩
    · exact ih _ he2 hr hint

theorem hasEdge_false_absent {g : Graph} {a b : Nat}
    (h : ¬ g.hasEdge a b = true) :
    (g.edges.all (fun e2 => !(e2.onPair a b))) = true := by
  unfold Graph.hasEdge at h
  rw [List.all_eq_true]
  intro e2 he2
  rw [Bool.not_eq_true']
  by_contra hq
  rw [Bool.not_eq_false] at hq
  exact h (List.any_eq_true.mpr ⟨e2, he2, hq⟩)

theorem pairAbsent_pruneRemovals_mono {a b : Nat} :
    ∀ (marked : List MarkEntry) (st : Graph × List Change),
      (st.1.edges.all (fun e2 => !(e2.onPair a b))) = true →
      (((marked.foldl pruneRemovals st)).1.edges.all
        (fun e2 => !(e2.onPair a b))) = true := by
  intro marked st h
  refine foldl_rec (fun st2 : Graph × List Change =>
    (st2.1.edges.all (fun e2 => !(e2.onPair a b))) = true)
    pruneRemovals marked st h ?_
  intro st2 m _ hp
  unfold pruneRemovals
  dsimp only
  split
  · exact pairAbsent_removeEdge_mono hp _ _
  · exact hp

theorem pairAbsent_after_removals {a b : Nat} :
    ∀ (marked : List MarkEntry) (st : Graph × List Change),
      (∃ m ∈ marked, m.mu = a ∧ m.mv = b) →
      (((marked.foldl pruneRemovals st)).1.edges.all
        (fun e2 => !(e2.onPair a b))) = true := by
  intro marked
  induction marked with
  | nil =>
    intro st h
    rcases h with ⟨m, hm, _⟩
    cases hm
  | cons m0 t ih =>
    intro st h
    rw [List.foldl_cons]
    rcases h with ⟨m, hm, hpa, hpb⟩
    rcases List.mem_cons.mp hm with rfl | hm2
    · have habs : (((pruneRemovals st m).1).edges.all
          (fun e2 => !(e2.onPair a b))) = true := by
        rw [← hpa, ← hpb]
        unfold pruneRemovals
        dsimp only
        split
        · exact pairAbsent_removeEdge _ _ _
        · next h2 => exact hasEdge_false_absent h2
      exact pairAbsent_pruneRemovals_mono t _ habs
    · exact ih _ ⟨m, hm2, hpa, hpb⟩

theorem pairAbsent_emAddFold {a b target : Nat} {reason : Str} :
    ∀ (l : List Nat) (st : Graph × List Change),
      (st.1.edges.all (fun e2 => !(e2.onPair a b))) = true →
      (∀ n ∈ l, GEdge.onPair ⟨n, target, "emergency".toList, 1⟩ a b = false) →
      (((l.foldl (emAddStep target reason) st)).1.edges.all
        (fun e2 => !(e2.onPair a b))) = true := by
  intro l st h hne
  refine foldl_rec (fun st2 : Graph × List Change =>
    (st2.1.edges.all (fun e2 => !(e2.onPair a b))) = true)
    (emAddStep target reason) l st h ?_
  intro st2 n hn hp
  unfold emAddStep
  dsimp only
  split
  · exact hp
  · exact pairAbsent_addEdge hp (hne n hn)

/-- Counterexample to C8: the pruner's intersection rule fires only for
road-typed edges — an emergency-typed edge touching an intersection
node survives the pruning pass untouched. -/
theorem pruner_keeps_non_road_intersection_edge :
    interGraph.typeOf 1 = "intersection".toList ∧
    (⟨0, 1, "emergency".toList, 1⟩ : GEdge) ∈ interGraph.edges ∧
    (applyProgrammaticPruning interGraph [] zeroStream).1.edges =
      [⟨0, 1, "emergency".toList, 1⟩] := by
  decide

/-- C8 amended: the pruner removes every ROAD-typed edge touching an
intersection node (rules 2/3 of the single pass mark each such edge and
the removal pass deletes it; the later emergency additions never
recreate a pair with an intersection endpoint). Non-road edges are not
targeted by the intersection rule, per the counterexample. -/
theorem pruner_removes_every_road_intersection_edge (g : Graph)
    (cal : List Str) (u : Nat → ℚ) (e : GEdge)
    (hnd : (g.nodes.map (·.nid)).Nodup)
    (he : e ∈ g.edges) (hr : e.ety = "road".toList)
    (hint : g.typeOf e.u = "intersection".toList ∨
            g.typeOf e.v = "intersection".toList) :
    ((applyProgrammaticPruning g cal u).1.edges.all
      (fun e2 => !(e2.onPair e.u e.v))) = true := by
  have hmk := @marked_contains_pair g ((cal.map lowerStr).contains "flood".toList)
    ((cal.map lowerStr).contains "earthquake".toList) u g.edges ([], 0) e he hr hint
  have habs := pairAbsent_after_removals
    ((g.edges.foldl (pruneMarkStep g ((cal.map lowerStr).contains "flood".toList)
      ((cal.map lowerStr).contains "earthquake".toList) u) ([], 0)).1)
    (g, ([] : List Change)) hmk
  have hnodes := nodes_pruneRemovals
    ((g.edges.foldl (pruneMarkStep g ((cal.map lowerStr).contains "flood".toList)
      ((cal.map lowerStr).contains "earthquake".toList) u) ([], 0)).1)
    (g, ([] : List Change))
  have htyp : ∀ (p : Node → Bool) (n : Nat),
      n ∈ ((g.nodes.filter p).map (·.nid)) → ∃ nd : Node,
        nd ∈ g.nodes ∧ nd.nid = n ∧ p nd = true := by
    intro p n hn
    rw [List.mem_map] at hn
    obtain ⟨nd, hnd2, rfl⟩ := hn
    rw [List.mem_filter] at hnd2
    exact ⟨nd, hnd2.1, rfl, hnd2.2⟩
  have hne : ∀ (x y : Nat) (ty : Str) (w : ℚ),
      g.typeOf x ≠ "intersection".toList → g.typeOf y ≠ "intersection".toList →
      GEdge.onPair ⟨x, y, ty, w⟩ e.u e.v = false := by
    intro x y ty w hx hy
    rw [Bool.eq_false_iff]
    intro hq
    simp only [GEdge.onPair, Bool.or_eq_true, Bool.and_eq_true,
      decide_eq_true_eq] at hq
    rcases hq with ⟨hxu, hyv⟩ | ⟨hxv, hyu⟩
    · rcases hint with hi | hi
      · exact hx (by rw [hxu]; exact hi)
      · exact hy (by rw [hyv]; exact hi)
    · rcases hint with hi | hi
      · exact hy (by rw [hyu]; exact hi)
      · exact hx (by rw [hxv]; exact hi)
  have hHosp : ∀ n ∈ ((g.nodes.filter (·.itype = "Hospital".toList)).map (·.nid)),
      g.typeOf n = "Hospital".toList := by
    intro n hn
    obtain ⟨nd, hmem, hid, hpn⟩ := htyp _ n hn
    rw [decide_eq_true_eq] at hpn
    rw [← hid, typeOf_eq_of_mem hmem hnd, hpn]
  have hShel : ∀ n ∈ ((g.nodes.filter (fun nd =>
      nd.itype = "Bunker/Shelter".toList ∨
      nd.itype = "Evacuation Point".toList)).map (·.nid)),
      g.typeOf n ≠ "intersection".toList := by
    intro n hn
    obtain ⟨nd, hmem, hid, hpn⟩ := htyp _ n hn
    rw [decide_eq_true_eq] at hpn
    rw [← hid, typeOf_eq_of_mem hmem hnd]
    rcases hpn with hpn | hpn <;> rw [hpn] <;> decide
  have hFire : ∀ n ∈ ((g.nodes.filter (·.itype = "Fire Station".toList)).map (·.nid)),
      g.typeOf n = "Fire Station".toList := by
    intro n hn
    obtain ⟨nd, hmem, hid, hpn⟩ := htyp _ n hn
    rw [decide_eq_true_eq] at hpn
    rw [← hid, typeOf_eq_of_mem hmem hnd, hpn]
  unfold applyProgrammaticPruning
  dsimp only
  rw [hnodes]
  split
  · next heqF heqH =>
    refine pairAbsent_emAddFold _ _ ?_ ?_
    · split
      · next heqH2 heqS =>
        refine pairAbsent_emAddFold _ _ habs ?_
        intro n hn
        refine hne _ _ _ _ (by rw [hHosp n hn]; decide) ?_
        exact hShel _ (heqS ▸ List.mem_cons_self _ _)
      · exact habs
    · intro n hn
      refine hne _ _ _ _ (by rw [hFire n hn]; decide) ?_
      rw [hHosp _ (heqH ▸ List.mem_cons_self _ _)]
      decide
  · split
    · next heqH2 heqS =>
      refine pairAbsent_emAddFold _ _ habs ?_
      intro n hn
      refine hne _ _ _ _ (by rw [hHosp n hn]; decide) ?_
      exact hShel _ (heqS ▸ List.mem_cons_self _ _)
    · exact habs

/-- Witness for the amended C8 at a concrete road-intersection edge. -/
theorem pruner_removes_every_road_intersection_edge_witness :
    (roadInterGraph.nodes.map (·.nid)).Nodup ∧
    (⟨0, 1, "road".toList, 1⟩ : GEdge) ∈ roadInterGraph.edges ∧
    ((applyProgrammaticPruning roadInterGraph [] zeroStream).1.edges.all
      (fun e2 => !(e2.onPair 0 1))) = true :=
  ⟨by decide, by decide,
   pruner_removes_every_road_intersection_edge roadInterGraph [] zeroStream
     ⟨0, 1, "road".toList, 1⟩ (by decide) (by decide) (by decide)
     (Or.inr (by decide))⟩

theorem dsq_nonneg (p q : Pos) : 0 ≤ dsq p q :=
  add_nonneg (mul_self_nonneg _) (mul_self_nonneg _)

theorem dsq_self (p : Pos) : dsq p p = 0 := by
  unfold dsq
  ring

theorem dsq_eq_zero_iff {p q : Pos} : dsq p q = 0 ↔ p = q := by
  unfold dsq
  constructor
  · intro h
    have ha : (p.1 - q.1) * (p.1 - q.1) = 0 := by
      nlinarith [mul_self_nonneg (p.1 - q.1), mul_self_nonneg (p.2 - q.2)]
    have hb : (p.2 - q.2) * (p.2 - q.2) = 0 := by
      nlinarith [mul_self_nonneg (p.1 - q.1), mul_self_nonneg (p.2 - q.2)]
    have e1 : p.1 = q.1 := by
      have := mul_self_eq_zero.mp ha
      linarith
    have e2 : p.2 = q.2 := by
      have := mul_self_eq_zero.mp hb
      linarith
    exact Prod.ext e1 e2
  · rintro rfl
    ring

theorem sort3_head {p0 p1 p2 : Pos} (h01 : p0 ≠ p1) (h02 : p0 ≠ p2) :
    ∃ t, sortByDist [p0, p1, p2] p0 = 0 :: t ∧ t.Perm [1, 2] := by
  have hperm : (sortByDist [p0, p1, p2] p0).Perm [0, 1, 2] :=
    List.perm_insertionSort _ _
  have hsorted : List.Sorted (fun a b =>
      dsq p0 ([p0, p1, p2].getD a (0, 0)) ≤ dsq p0 ([p0, p1, p2].getD b (0, 0)))
      (sortByDist [p0, p1, p2] p0) := by
    letI : IsTotal Nat (fun a b =>
        dsq p0 ([p0, p1, p2].getD a (0, 0)) ≤ dsq p0 ([p0, p1, p2].getD b (0, 0))) :=
      ⟨fun a b => le_total _ _⟩
    letI : IsTrans Nat (fun a b =>
        dsq p0 ([p0, p1, p2].getD a (0, 0)) ≤ dsq p0 ([p0, p1, p2].getD b (0, 0))) :=
      ⟨fun a b c hab hbc => le_trans hab hbc⟩
    exact List.sorted_insertionSort _ _
  cases hs : sortByDist [p0, p1, p2] p0 with
  | nil =>
    exfalso
    have := (hs ▸ hperm).length_eq
    simp at this
  | cons h t =>
    rw [hs] at hperm hsorted
    have hsc := List.sorted_cons.mp hsorted
    have hmemh : h ∈ [0, 1, 2] := hperm.mem_iff.mp (List.mem_cons_self h t)
    have hh0 : h = 0 := by
      rcases (show h = 0 ∨ h = 1 ∨ h = 2 by simpa using hmemh) with h0 | h1 | h2
      · exact h0
      · exfalso
        have h0mem : (0 : Nat) ∈ h :: t := hperm.mem_iff.mpr (by decide)
        have h0t : (0 : Nat) ∈ t := by
          rcases List.mem_cons.mp h0mem with he | ht
          · rw [h1] at he
            cases he
          · exact ht
        have hr0 := hsc.1 0 h0t
        rw [h1] at hr0
        have hz : dsq p0 p1 ≤ dsq p0 p0 := hr0
        rw [dsq_self] at hz
        exact h01 (dsq_eq_zero_iff.mp (le_antisymm hz (dsq_nonneg _ _)))
      · exfalso
        have h0mem : (0 : Nat) ∈ h :: t := hperm.mem_iff.mpr (by decide)
        have h0t : (0 : Nat) ∈ t := by
          rcases List.mem_cons.mp h0mem with he | ht
          · rw [h2] at he
            cases he
          · exact ht
        have hr0 := hsc.1 0 h0t
        rw [h2] at hr0
        have hz : dsq p0 p2 ≤ dsq p0 p0 := hr0
        rw [dsq_self] at hz
        exact h02 (dsq_eq_zero_iff.mp (le_antisymm hz (dsq_nonneg _ _)))
    subst hh0
    exact ⟨t, rfl, hperm.cons_inv⟩

theorem knnStep_mono {nodesL : List Nat} {pa : List Pos} {sq : ℚ → ℚ} {i : Nat}
    {gB : Graph} {x y : Nat} (ji : Nat) (h : gB.hasEdge x y = true) :
    (knnStep nodesL pa sq i gB ji).hasEdge x y = true := by
  unfold knnStep
  dsimp only
  split
  · exact h
  · exact hasEdge_addEdge_mono _ _ _ _ h

theorem knnStep_self (nodesL : List Nat) (pa : List Pos) (sq : ℚ → ℚ)
    (i : Nat) (gB : Graph) (ji : Nat) :
    (knnStep nodesL pa sq i gB ji).hasEdge (nodesL.getD i 0)
      (nodesL.getD ji 0) = true := by
  unfold knnStep
  dsimp only
  split
  · next h => exact h
  · exact hasEdge_addEdge_self _ _ _ _ _

theorem knnFold_mono {nodesL : List Nat} {pa : List Pos} {sq : ℚ → ℚ}
    {i x y : Nat} (l : List Nat) (gB : Graph) (h : gB.hasEdge x y = true) :
    ((l.foldl (knnStep nodesL pa sq i) gB)).hasEdge x y = true :=
  foldl_rec (fun g2 : Graph => g2.hasEdge x y = true) _ l gB h
    (fun _ a _ hp => knnStep_mono a hp)

theorem knnFold_estab {nodesL : List Nat} {pa : List Pos} {sq : ℚ → ℚ}
    {i : Nat} :
    ∀ (l : List Nat) (gB : Graph) {j : Nat}, j ∈ l →
      ((l.foldl (knnStep nodesL pa sq i) gB)).hasEdge (nodesL.getD i 0)
        (nodesL.getD j 0) = true := by
  intro l
  induction l with
  | nil => intro gB j hj; cases hj
  | cons a t ih =>
    intro gB j hj
    rw [List.foldl_cons]
    rcases List.mem_cons.mp hj with rfl | hj2
    · exact knnFold_mono t _ (knnStep_self _ _ _ _ _ _)
    · exact ih _ hj2

theorem knnStep_nodes (nodesL : List Nat) (pa : List Pos) (sq : ℚ → ℚ)
    (i : Nat) (gB : Graph) (ji : Nat) :
    (knnStep nodesL pa sq i gB ji).nodes = gB.nodes := by
  unfold knnStep
  dsimp only
  split
  · rfl
  · exact nodes_addEdge _ _ _ _ _

theorem knnFold_nodes {nodesL : List Nat} {pa : List Pos} {sq : ℚ → ℚ}
    {i : Nat} : ∀ (l : List Nat) (gB : Graph),
      ((l.foldl (knnStep nodesL pa sq i) gB)).nodes = gB.nodes := by
  intro l
  induction l with
  | nil => intro gB; rfl
  | cons a t ih =>
    intro gB
    rw [List.foldl_cons, ih, knnStep_nodes]

theorem isConnected_of_three {g : Graph} (hn : g.nodes = threeNodeGraph.nodes)
    (h01 : g.hasEdge 0 1 = true) (h02 : g.hasEdge 0 2 = true) :
    g.isConnected = true := by
  have hex : ∀ s : List Nat, g.expandOnce s =
      [0, 1, 2].filter (fun v => s.contains v ||
        s.any (fun u2 => g.hasEdge u2 v)) := by
    intro s
    unfold Graph.expandOnce
    rw [hn]
    rfl
  have e1 : g.expandOnce [0] = [0, 1, 2] := by
    rw [hex]
    simp [List.filter, h01, h02]
  have e2 : g.expandOnce [0, 1, 2] = [0, 1, 2] := by
    rw [hex]
    simp [List.filter]
  have hreach : g.reachIter 3 [0] = [0, 1, 2] := by
    rw [show g.reachIter 3 [0] = g.reachIter 2 (g.expandOnce [0]) from rfl, e1]
    rw [show g.reachIter 2 [0, 1, 2] = g.reachIter 1 (g.expandOnce [0, 1, 2]) from rfl, e2]
    rw [show g.reachIter 1 [0, 1, 2] = g.reachIter 0 (g.expandOnce [0, 1, 2]) from rfl, e2]
    rfl
  unfold Graph.isConnected
  rw [hn]
  show (threeNodeGraph.nodes.all (fun n => (g.reachIter 3 [0]).contains n.nid)) = true
  rw [hreach]
  decide

/-- C7: with fewer than 4 nodes the Delaunay triangulation is skipped —
the road wiring is independent of the triangulation oracle — and for
the 3-node scenario (one Hospital, one Fire Station, one Power Plant at
pairwise distinct coordinates) the nearest-neighbor pass alone makes
the road graph connected. -/
theorem minimal_graph_triangulation_skip_and_connected
    (tri1 tri2 : TriOracle) (sq : ℚ → ℚ) (cr : ℚ) (p0 p1 p2 : Pos)
    (h01 : p0 ≠ p1) (h02 : p0 ≠ p2) (h12 : p1 ≠ p2) :
    addRoadEdges tri1 sq threeNodeGraph [(0, p0), (1, p1), (2, p2)] cr =
      addRoadEdges tri2 sq threeNodeGraph [(0, p0), (1, p1), (2, p2)] cr ∧
    (addRoadEdges tri1 sq threeNodeGraph
      [(0, p0), (1, p1), (2, p2)] cr).isConnected = true := by
  have hare : ∀ tri : TriOracle,
      addRoadEdges tri sq threeNodeGraph [(0, p0), (1, p1), (2, p2)] cr =
      knnPass [0, 1, 2] [p0, p1, p2] sq threeNodeGraph := by
    intro tri
    unfold addRoadEdges
    dsimp only
    have hpa : (threeNodeGraph.nodes.map (·.nid)).map
        (posLookup [(0, p0), (1, p1), (2, p2)]) = [p0, p1, p2] := rfl
    have hnl : threeNodeGraph.nodes.map (·.nid) = [0, 1, 2] := rfl
    rw [hpa, hnl]
    have htri : triPass tri sq [0, 1, 2] [p0, p1, p2] cr threeNodeGraph =
        threeNodeGraph := by
      unfold triPass
      rw [if_neg]
      simp
    rw [htri]
  have hconn : (knnPass [0, 1, 2] [p0, p1, p2] sq threeNodeGraph).isConnected
      = true := by
    obtain ⟨t, hs, htp⟩ := sort3_head h01 h02
    have htl : t.length = 2 := by simpa using htp.length_eq
    have htk : ((List.take 3 (0 :: t)).drop 1) = t := by
      rw [show List.take 3 ((0 : Nat) :: t) = 0 :: t.take 2 from rfl]
      rw [List.take_of_length_le (le_of_eq htl)]
      rfl
    unfold knnPass
    dsimp only
    rw [show List.range (([0, 1, 2] : List Nat).length) = [0, 1, 2] from rfl]
    rw [List.foldl_cons, List.foldl_cons, List.foldl_cons, List.foldl_nil]
    apply isConnected_of_three
    · rw [knnFold_nodes, knnFold_nodes, knnFold_nodes]
    · apply knnFold_mono
      apply knnFold_mono
      rw [show List.getD ([p0, p1, p2] : List Pos) 0 (0, 0) = p0 from rfl,
        show min 4 (([0, 1, 2] : List Nat).length - 1) + 1 = 3 from rfl, hs, htk]
      exact @knnFold_estab [0, 1, 2] [p0, p1, p2] sq 0 t threeNodeGraph 1
        (htp.mem_iff.mpr (by decide))
    · apply knnFold_mono
      apply knnFold_mono
      rw [show List.getD ([p0, p1, p2] : List Pos) 0 (0, 0) = p0 from rfl,
        show min 4 (([0, 1, 2] : List Nat).length - 1) + 1 = 3 from rfl, hs, htk]
      exact @knnFold_estab [0, 1, 2] [p0, p1, p2] sq 0 t threeNodeGraph 2
        (htp.mem_iff.mpr (by decide))
  refine ⟨?_, ?_⟩
  · rw [hare tri1, hare tri2]
  · rw [hare tri1]
    exact hconn

/-- Witness for C7 at concrete distinct coordinates. -/
theorem minimal_graph_triangulation_skip_and_connected_witness :
    ((0 : ℚ), (0 : ℚ)) ≠ ((1 : ℚ), (0 : ℚ)) ∧
    ((0 : ℚ), (0 : ℚ)) ≠ ((0 : ℚ), (1 : ℚ)) ∧
    ((1 : ℚ), (0 : ℚ)) ≠ ((0 : ℚ), (1 : ℚ)) ∧
    (addRoadEdges noneOracle idQ threeNodeGraph
      [(0, ((0 : ℚ), (0 : ℚ))), (1, ((1 : ℚ), (0 : ℚ))),
       (2, ((0 : ℚ), (1 : ℚ)))] 1).isConnected = true :=
  ⟨by decide, by decide, by decide,
   (minimal_graph_triangulation_skip_and_connected noneOracle noneOracle idQ 1
     ((0 : ℚ), (0 : ℚ)) ((1 : ℚ), (0 : ℚ)) ((0 : ℚ), (1 : ℚ))
     (by decide) (by decide) (by decide)).2⟩

end CityInfra
